import Mathlib

/-!
Verification of the Billing Ledger & Payment Allocation Engine of the
House_RentBot repository.

The definitions below are a shallow embedding of
`src/bot/services/payment_service.py` and `src/bot/services/balance_service.py`
over the data model of `src/bot/database/models.py`.  Monetary amounts
(`Numeric(12,2)` columns manipulated as Python floats, stored at 2-decimal
precision per spec section 6) are modelled exactly as integer hundredths of a
currency unit (`Money := ℤ`, so the source's `1000.00` is `100000`); the
fixed `0.01` tolerance of the source is the constant `eps = 1`.  Scaling by
100 is an order isomorphism, so every comparison of the source maps exactly.
Dates
(`DATE` / `date(...)` values, compared only with `<=`) are modelled as `Nat`.
The database session is modelled as an explicit `DB` state record; SQLAlchemy
autoflush semantics mean every `session.add` / `session.delete` is visible to
the next query, so state updates are applied immediately.  Exceptions abort
the enclosing transaction, so fallible operations return `Except Err` and an
error result carries no successor state.
-/

namespace HouseRentBot

abbrev Money := ℤ

/-- The fixed 0.01 currency-unit tolerance of the source, i.e. one hundredth
of a currency unit. -/
def eps : Money := 1

/-- `ChargeStatus` enum of `models.py` (values "pending" / "paid"). -/
inductive ChargeStatus
  | pending
  | paid
deriving DecidableEq, Repr

/-- One row of `rent_charges` or `comm_charges`: both tables carry the same
fields relevant to the engine (id, stay_id, month, amount, status); which
table a row lives in is given by which `DB` list holds it. -/
structure Charge where
  id : Nat
  stay_id : Nat
  month : Nat
  amount : Money
  status : ChargeStatus
deriving DecidableEq, Repr

/-- `meta_json` of a `Payment`: the JSON keys actually read or written by the
payment service. -/
structure Meta where
  note : Option String
  cancelled_by : Option Nat
  cancelled_at : Option Nat
  cancel_reason : Option String
  original_status : Option String
deriving DecidableEq, Repr

def emptyMeta : Meta :=
  { note := none, cancelled_by := none, cancelled_at := none,
    cancel_reason := none, original_status := none }

/-- A row of `payments`.  `status` is the raw string column: the source
assigns values outside the `PaymentStatus` enum ("cancelled", "pending").
`confirmed_at` is the date part of the timestamp (`func.date`), `none` for
SQL NULL. -/
structure Payment where
  id : Nat
  stay_id : Nat
  type : String
  amount : Money
  total_amount : Option Money
  allocated_amount : Money
  unallocated_amount : Money
  method : String
  status : String
  source : String
  is_manual : Bool
  marked_by : Option Nat
  confirmed_at : Option Nat
  meta_json : Option Meta
deriving DecidableEq, Repr

/-- A row of `payment_allocations`. -/
structure PaymentAllocation where
  id : Nat
  payment_id : Nat
  charge_id : Nat
  charge_type : String
  amount : Money
deriving DecidableEq, Repr

/-- A row of `tenant_stays` (the fields the engine reads). -/
structure TenantStay where
  id : Nat
  object_id : Nat
deriving DecidableEq, Repr

/-- A row of `objects` (the fields the engine reads). -/
structure RentalObject where
  id : Nat
  owner_id : Nat
deriving DecidableEq, Repr

/-- The database state seen by one transaction.  Lists are in insertion
order (which is also `created_at` order, used by `ORDER BY created_at`).
`next_payment_id` / `next_allocation_id` model the autoincrement primary
keys handed out by `session.flush()` / commit. -/
structure DB where
  payments : List Payment
  rent_charges : List Charge
  comm_charges : List Charge
  allocations : List PaymentAllocation
  stays : List TenantStay
  objects : List RentalObject
  next_payment_id : Nat
  next_allocation_id : Nat
deriving DecidableEq, Repr

/-- Domain error taxonomy (spec §7).  The source raises `ValueError` /
`PermissionError`; the constructors record which failure condition fired:
`notFound` = missing payment / charge / stay / object, `alreadyPaid` =
manual-mark on a settled charge, `invalidChargeType` = bad discriminator
string, `unauthorized` = actor lacks the ownership role, `invalidState` =
cancel from a non-cancellable status. -/
inductive Err
  | notFound
  | alreadyPaid
  | invalidChargeType
  | unauthorized
  | invalidState
deriving DecidableEq, Repr

/-- Decidable equality for `Except` results, so concrete runs can be checked
by `decide`. -/
instance exceptDecEq {e a : Type} [DecidableEq e] [DecidableEq a] :
    DecidableEq (Except e a) := fun x y =>
  match x, y with
  | .error u, .error v =>
    if h : u = v then .isTrue (by rw [h]) else
      .isFalse (fun hc => h (by cases hc; rfl))
  | .ok u, .ok v =>
    if h : u = v then .isTrue (by rw [h]) else
      .isFalse (fun hc => h (by cases hc; rfl))
  | .error _, .ok _ => .isFalse (fun hc => by cases hc)
  | .ok _, .error _ => .isFalse (fun hc => by cases hc)

/-! ### Row lookups (SELECT ... WHERE id = ...) -/

def findPayment (db : DB) (pid : Nat) : Option Payment :=
  db.payments.find? (fun p => p.id == pid)

/-- The charge table selected by a `charge_type` discriminator string:
`"rent"` selects `rent_charges`, anything else selects `comm_charges`
(mirroring the `if charge_type == "rent": ... else: ...` branches of the
source). -/
def chargesOf (db : DB) (ct : String) : List Charge :=
  if ct == "rent" then db.rent_charges else db.comm_charges

def findCharge (db : DB) (ct : String) (cid : Nat) : Option Charge :=
  (chargesOf db ct).find? (fun c => c.id == cid)

def findStay (db : DB) (sid : Nat) : Option TenantStay :=
  db.stays.find? (fun s => s.id == sid)

def findObject (db : DB) (oid : Nat) : Option RentalObject :=
  db.objects.find? (fun o => o.id == oid)

/-! ### Row updates -/

/-- `charge.status = value` on the ORM object: updates the row with the
given id in the table selected by `ct`. -/
def setChargeStatus (db : DB) (ct : String) (cid : Nat) (s : ChargeStatus) : DB :=
  if ct == "rent" then
    { db with rent_charges :=
        db.rent_charges.map (fun c => if c.id == cid then { c with status := s } else c) }
  else
    { db with comm_charges :=
        db.comm_charges.map (fun c => if c.id == cid then { c with status := s } else c) }

def updatePayment (db : DB) (pid : Nat) (f : Payment → Payment) : DB :=
  { db with payments := db.payments.map (fun p => if p.id == pid then f p else p) }

/-- `payment.total_amount if payment.total_amount is not None else payment.amount`. -/
def totalOf (p : Payment) : Money :=
  p.total_amount.getD p.amount

/-! ### payment_service.py -/

/-- `_get_paid_amount_for_charge`: `SELECT coalesce(sum(amount),0) FROM
payment_allocations WHERE charge_id = ... AND charge_type = ...`. -/
def get_paid_amount_for_charge (allocs : List PaymentAllocation)
    (cid : Nat) (ct : String) : Money :=
  ((allocs.filter (fun a => a.charge_id == cid && a.charge_type == ct)).map
    (fun a => a.amount)).sum

/-- `get_payment_allocations`: all allocations of a payment, by `created_at`
(= insertion) order. -/
def get_payment_allocations (db : DB) (pid : Nat) : List PaymentAllocation :=
  db.allocations.filter (fun a => a.payment_id == pid)

/-- The charge list walked by `allocate_payment`: `_get_unpaid_rent_charges`
and `_get_unpaid_comm_charges` fetch every charge of the stay ordered by
month, the lists are concatenated with `"rent"` / `"comm"` tags and then
stably sorted by month (`all_charges.sort(key=lambda x: x[1].month)`).
A single stable insertion sort of the tagged concatenation produces exactly
that order. -/
def fetchStayCharges (db : DB) (stay_id : Nat) : List (String × Charge) :=
  List.insertionSort (fun x y : String × Charge => x.2.month ≤ y.2.month)
    ((db.rent_charges.filter (fun c => c.stay_id == stay_id)).map (fun c => ("rent", c)) ++
     (db.comm_charges.filter (fun c => c.stay_id == stay_id)).map (fun c => ("comm", c)))

/-- The `for charge_type, charge in all_charges:` loop of `allocate_payment`
(lines 94-126): threads the session state, the remaining amount and the list
of created allocations. -/
def allocLoop (pid : Nat) :
    List (String × Charge) → DB → Money → List PaymentAllocation →
    DB × Money × List PaymentAllocation
  | [], db, remaining, acc => (db, remaining, acc)
  | (ct, ch) :: rest, db, remaining, acc =>
    if remaining ≤ eps then
      (db, remaining, acc)
    else
      let paid_so_far := get_paid_amount_for_charge db.allocations ch.id ct
      let charge_remaining := ch.amount - paid_so_far
      if charge_remaining ≤ eps then
        allocLoop pid rest db remaining acc
      else
        let to_allocate := min remaining charge_remaining
        let alloc : PaymentAllocation :=
          { id := db.next_allocation_id, payment_id := pid, charge_id := ch.id,
            charge_type := ct, amount := to_allocate }
        let db1 : DB :=
          { db with allocations := db.allocations ++ [alloc],
                    next_allocation_id := db.next_allocation_id + 1 }
        let db2 := if ch.amount - eps ≤ paid_so_far + to_allocate
                   then setChargeStatus db1 ct ch.id ChargeStatus.paid
                   else db1
        allocLoop pid rest db2 (remaining - to_allocate) (acc ++ [alloc])

/-- `allocate_payment` (payment_service.py lines 18-133). -/
def allocate_payment (db : DB) (payment_id : Nat) :
    Except Err (DB × List PaymentAllocation) :=
  match findPayment db payment_id with
  | none => .error .notFound
  | some payment =>
    let amount_to_allocate := totalOf payment
    let already_allocated := payment.allocated_amount
    let remaining := amount_to_allocate - already_allocated
    if remaining ≤ eps then
      .ok (db, [])
    else
      let all_charges := fetchStayCharges db payment.stay_id
      let r := allocLoop payment_id all_charges db remaining []
      let db2 := updatePayment r.1 payment_id (fun p =>
        { p with
          allocated_amount :=
            p.allocated_amount + (amount_to_allocate - already_allocated - r.2.1),
          unallocated_amount := r.2.1 })
      .ok (db2, r.2.2)

/-- `await session.delete(alloc)`: rows are deleted by primary key. -/
def removeAllocation (db : DB) (aid : Nat) : DB :=
  { db with allocations := db.allocations.filter (fun a => a.id != aid) }

/-- The `for alloc in allocations:` loop of `deallocate_payment`
(lines 233-255).  The re-summed paid amount includes the current allocation
(deleted only afterwards) but excludes allocations deleted in earlier
iterations (autoflush). -/
def deallocLoop : List PaymentAllocation → DB → DB
  | [], db => db
  | alloc :: rest, db =>
    let db1 :=
      match findCharge db alloc.charge_type alloc.charge_id with
      | none => db
      | some charge =>
        if charge.status = ChargeStatus.paid then
          let paid :=
            get_paid_amount_for_charge db.allocations alloc.charge_id alloc.charge_type
              - alloc.amount
          if paid < charge.amount - eps then
            setChargeStatus db alloc.charge_type alloc.charge_id ChargeStatus.pending
          else db
        else db
    deallocLoop rest (removeAllocation db1 alloc.id)

/-- `deallocate_payment` (lines 221-268).  Never raises: a missing payment
just leaves the payment-field reset as a no-op. -/
def deallocate_payment (db : DB) (payment_id : Nat) : DB :=
  let allocations := get_payment_allocations db payment_id
  let db1 := deallocLoop allocations db
  match findPayment db1 payment_id with
  | none => db1
  | some _ =>
    updatePayment db1 payment_id (fun p =>
      { p with allocated_amount := 0, unallocated_amount := totalOf p })

/-- The virtual payment synthesized by `mark_charge_as_paid` (lines 346-361). -/
def markPayment (now : Nat) (db : DB) (charge : Charge) (charge_type : String)
    (admin_id : Nat) (admin_name : String) (note : Option String) : Payment :=
  { id := db.next_payment_id,
    stay_id := charge.stay_id,
    type := if charge_type == "rent" then "rent" else "comm",
    amount := charge.amount,
    total_amount := some charge.amount,
    allocated_amount := charge.amount,
    unallocated_amount := 0,
    method := "manual",
    status := "confirmed",
    source := "manual",
    is_manual := true,
    marked_by := some admin_id,
    confirmed_at := some now,
    meta_json := some { emptyMeta with
      note := some (note.getD ("Отмечено вручную админом " ++ admin_name)) } }

/-- `mark_charge_as_paid` (lines 271-380).  `owner_ids` is
`config.OWNER_IDS`; `now` the commit-time date. -/
def mark_charge_as_paid (owner_ids : List Nat) (now : Nat) (db : DB)
    (charge_id : Nat) (charge_type : String) (admin_id : Nat)
    (admin_name : String) (note : Option String) :
    Except Err (DB × Payment) :=
  if charge_type ≠ "rent" ∧ charge_type ≠ "comm" then
    .error .invalidChargeType
  else
    match findCharge db charge_type charge_id with
    | none => .error .notFound
    | some charge =>
      if charge.status = ChargeStatus.paid then
        .error .alreadyPaid
      else
        match findStay db charge.stay_id with
        | none => .error .notFound
        | some stay =>
          match findObject db stay.object_id with
          | none => .error .notFound
          | some obj =>
            if admin_id ∉ owner_ids ∧ obj.owner_id ≠ admin_id then
              .error .unauthorized
            else
              let payment : Payment :=
                markPayment now db charge charge_type admin_id admin_name note
              let db1 : DB :=
                { db with payments := db.payments ++ [payment],
                          next_payment_id := db.next_payment_id + 1 }
              let alloc : PaymentAllocation :=
                { id := db1.next_allocation_id, payment_id := payment.id,
                  charge_id := charge_id, charge_type := charge_type,
                  amount := charge.amount }
              let db2 : DB :=
                { db1 with allocations := db1.allocations ++ [alloc],
                           next_allocation_id := db1.next_allocation_id + 1 }
              let db3 := setChargeStatus db2 charge_type charge_id ChargeStatus.paid
              .ok (db3, payment)

/-- The charge-revert loop of `cancel_payment` (lines 459-477): a charge
reverts to pending when no allocation from another payment references it.
Allocations are deleted only after the loop, so every sum is taken over the
full allocation table. -/
def cancelRevertLoop (payment_id : Nat) : List PaymentAllocation → DB → DB
  | [], db => db
  | alloc :: rest, db =>
    let db1 :=
      match findCharge db alloc.charge_type alloc.charge_id with
      | none => db
      | some _ =>
        let other_allocs := db.allocations.filter (fun a =>
          a.charge_id == alloc.charge_id && a.charge_type == alloc.charge_type &&
          a.payment_id != payment_id)
        if other_allocs.isEmpty then
          setChargeStatus db alloc.charge_type alloc.charge_id ChargeStatus.pending
        else db
    cancelRevertLoop payment_id rest db1

/-- The payment mutation of `cancel_payment` lines 486-498: the status and
amount overwrites followed by the `meta_json` audit entries.  Line 498 stores
`payment.status` as `original_status`, reading the field line 487 has already
overwritten, so the recorded value is the post-overwrite status. -/
def cancelUpdate (admin_id now : Nat) (reason : String) (p : Payment) : Payment :=
  let p1 := { p with status := "cancelled",
                     allocated_amount := 0, unallocated_amount := 0 }
  let m := p1.meta_json.getD emptyMeta
  { p1 with meta_json := some { m with
      cancelled_by := some admin_id,
      cancelled_at := some now,
      cancel_reason := some reason,
      original_status := some p1.status } }

/-- `cancel_payment` (lines 383-505).  Note the audit-metadata write at line
498 reads `payment.status` after line 487 has already overwritten it with
`'cancelled'`; the embedding mirrors that read order. -/
def cancel_payment (owner_ids : List Nat) (now : Nat) (db : DB)
    (payment_id : Nat) (admin_id : Nat) (reason : String) :
    Except Err (DB × Bool) :=
  match findPayment db payment_id with
  | none => .error .notFound
  | some payment =>
    if payment.status = "cancelled" then
      .ok (db, true)
    else if payment.status ≠ "pending_manual" ∧ payment.status ≠ "pending" then
      .error .invalidState
    else
      let is_owner : Bool := admin_id ∈ owner_ids
      let is_object_owner : Bool :=
        match findStay db payment.stay_id with
        | none => false
        | some stay =>
          match findObject db stay.object_id with
          | none => false
          | some obj => obj.owner_id == admin_id
      if ¬ (is_owner || is_object_owner) then
        .error .unauthorized
      else
        let allocations := get_payment_allocations db payment_id
        let db1 := cancelRevertLoop payment_id allocations db
        let db2 : DB :=
          { db1 with allocations :=
              db1.allocations.filter (fun a => a.payment_id != payment_id) }
        let db3 := updatePayment db2 payment_id (cancelUpdate admin_id now reason)
        .ok (db3, true)

/-! ### balance_service.py -/

/-- `ChargeInfo` named tuple. -/
structure ChargeInfo where
  id : Nat
  type : String
  month : Nat
  amount : Money
  paid_amount : Money
  status : String
deriving DecidableEq, Repr

/-- `StayBalance` named tuple. -/
structure StayBalance where
  stay_id : Nat
  total_charged : Money
  total_paid : Money
  balance : Money
  rent_charged : Money
  comm_charged : Money
  rent_paid : Money
  comm_paid : Money
  unpaid_charges : List ChargeInfo
  advances : Money
deriving DecidableEq, Repr

/-- The payment filter shared by the paid/advance sums of
`get_stay_balance`: stay match, `status == confirmed`, and
`date(confirmed_at) <= as_of_date` (false on NULL). -/
def confirmedOnOrBefore (stay_id : Nat) (as_of_date : Nat) (p : Payment) : Bool :=
  p.stay_id == stay_id && p.status == "confirmed" &&
    (match p.confirmed_at with
     | some d => decide (d ≤ as_of_date)
     | none => false)

/-- The two allocation-sum joins of `get_stay_balance` (lines 93-118). -/
def allocPaidSum (db : DB) (stay_id : Nat) (as_of_date : Nat) (ct : String) : Money :=
  ((db.allocations.filter (fun a =>
      a.charge_type == ct &&
      db.payments.any (fun p => p.id == a.payment_id &&
        confirmedOnOrBefore stay_id as_of_date p))).map (fun a => a.amount)).sum

/-- `_get_unpaid_charges` for one of the two charge tables. -/
def unpaidChargesFrom (db : DB) (charges : List Charge) (ct : String)
    (stay_id : Nat) (as_of_date : Nat) : List ChargeInfo :=
  ((List.insertionSort (fun x y : Charge => x.month ≤ y.month)
      (charges.filter (fun c => c.stay_id == stay_id && decide (c.month ≤ as_of_date)))).filterMap
    (fun c =>
      let paid_amount := get_paid_amount_for_charge db.allocations c.id ct
      if paid_amount < c.amount - eps then
        some { id := c.id, type := ct, month := c.month, amount := c.amount,
               paid_amount := paid_amount,
               status := if 0 < paid_amount then "partial" else "unpaid" }
      else none))

/-- `_get_unpaid_charges` (balance_service.py lines 153-230). -/
def get_unpaid_charges (db : DB) (stay_id : Nat) (as_of_date : Nat) : List ChargeInfo :=
  unpaidChargesFrom db db.rent_charges "rent" stay_id as_of_date ++
  unpaidChargesFrom db db.comm_charges "comm" stay_id as_of_date

/-- `get_stay_balance` (balance_service.py lines 41-150). -/
def get_stay_balance (db : DB) (stay_id : Nat) (as_of_date : Nat) :
    Except Err StayBalance :=
  match findStay db stay_id with
  | none => .error .notFound
  | some _ =>
    let rent_charged := ((db.rent_charges.filter (fun c =>
        c.stay_id == stay_id && decide (c.month ≤ as_of_date))).map (fun c => c.amount)).sum
    let comm_charged := ((db.comm_charges.filter (fun c =>
        c.stay_id == stay_id && decide (c.month ≤ as_of_date))).map (fun c => c.amount)).sum
    let rent_paid := allocPaidSum db stay_id as_of_date "rent"
    let comm_paid := allocPaidSum db stay_id as_of_date "comm"
    let advances := ((db.payments.filter
        (confirmedOnOrBefore stay_id as_of_date)).map (fun p => p.unallocated_amount)).sum
    let total_charged := rent_charged + comm_charged
    let total_paid := rent_paid + comm_paid
    let balance := total_charged - total_paid - advances
    .ok { stay_id := stay_id,
          total_charged := total_charged,
          total_paid := total_paid,
          balance := balance,
          rent_charged := rent_charged,
          comm_charged := comm_charged,
          rent_paid := rent_paid,
          comm_paid := comm_paid,
          unpaid_charges := get_unpaid_charges db stay_id as_of_date,
          advances := advances }

/-! ### Basic state lemmas -/

/-- The status-independent part of a charge row. -/
def shape (c : Charge) : Nat × Nat × Nat × Money :=
  (c.id, c.stay_id, c.month, c.amount)

lemma setChargeStatus_payments (db : DB) (ct : String) (cid : Nat) (s : ChargeStatus) :
    (setChargeStatus db ct cid s).payments = db.payments := by
  unfold setChargeStatus; split <;> rfl

lemma setChargeStatus_allocations (db : DB) (ct : String) (cid : Nat) (s : ChargeStatus) :
    (setChargeStatus db ct cid s).allocations = db.allocations := by
  unfold setChargeStatus; split <;> rfl

lemma setChargeStatus_stays (db : DB) (ct : String) (cid : Nat) (s : ChargeStatus) :
    (setChargeStatus db ct cid s).stays = db.stays := by
  unfold setChargeStatus; split <;> rfl

lemma setChargeStatus_objects (db : DB) (ct : String) (cid : Nat) (s : ChargeStatus) :
    (setChargeStatus db ct cid s).objects = db.objects := by
  unfold setChargeStatus; split <;> rfl

lemma setChargeStatus_next_payment_id (db : DB) (ct : String) (cid : Nat) (s : ChargeStatus) :
    (setChargeStatus db ct cid s).next_payment_id = db.next_payment_id := by
  unfold setChargeStatus; split <;> rfl

lemma setChargeStatus_next_allocation_id (db : DB) (ct : String) (cid : Nat) (s : ChargeStatus) :
    (setChargeStatus db ct cid s).next_allocation_id = db.next_allocation_id := by
  unfold setChargeStatus; split <;> rfl

lemma shape_set (c : Charge) (cid : Nat) (s : ChargeStatus) :
    shape (if c.id == cid then { c with status := s } else c) = shape c := by
  split <;> rfl

lemma setChargeStatus_rent_shape (db : DB) (ct : String) (cid : Nat) (s : ChargeStatus) :
    (setChargeStatus db ct cid s).rent_charges.map shape = db.rent_charges.map shape := by
  unfold setChargeStatus
  split
  · dsimp only
    rw [List.map_map]
    exact List.map_congr_left (fun c _ => shape_set c cid s)
  · rfl

lemma setChargeStatus_comm_shape (db : DB) (ct : String) (cid : Nat) (s : ChargeStatus) :
    (setChargeStatus db ct cid s).comm_charges.map shape = db.comm_charges.map shape := by
  unfold setChargeStatus
  split
  · rfl
  · dsimp only
    rw [List.map_map]
    exact List.map_congr_left (fun c _ => shape_set c cid s)

lemma paid_append (l₁ l₂ : List PaymentAllocation) (cid : Nat) (ct : String) :
    get_paid_amount_for_charge (l₁ ++ l₂) cid ct =
      get_paid_amount_for_charge l₁ cid ct + get_paid_amount_for_charge l₂ cid ct := by
  simp [get_paid_amount_for_charge, List.filter_append]

lemma paid_single (a : PaymentAllocation) (cid : Nat) (ct : String) :
    get_paid_amount_for_charge [a] cid ct =
      if a.charge_id == cid && a.charge_type == ct then a.amount else 0 := by
  by_cases h : a.charge_id == cid && a.charge_type == ct
  · simp [get_paid_amount_for_charge, h]
  · simp [get_paid_amount_for_charge, h]

lemma paid_nonneg (l : List PaymentAllocation) (cid : Nat) (ct : String)
    (h : ∀ a ∈ l, 0 ≤ a.amount) : 0 ≤ get_paid_amount_for_charge l cid ct := by
  apply List.sum_nonneg
  intro x hx
  obtain ⟨a, ha, rfl⟩ := List.mem_map.mp hx
  exact h a (List.mem_filter.mp ha).1

lemma eps_pos : (0 : Money) < eps := by norm_num [eps]


/-- Everything `allocLoop` leaves untouched, plus the exact relation between
the session's allocation table and the returned allocation list. -/
lemma allocLoop_state (pid : Nat) (L : List (String × Charge)) :
    ∀ (db : DB) (rem : Money) (acc : List PaymentAllocation),
      (allocLoop pid L db rem acc).1.payments = db.payments ∧
      (allocLoop pid L db rem acc).1.stays = db.stays ∧
      (allocLoop pid L db rem acc).1.objects = db.objects ∧
      (allocLoop pid L db rem acc).1.next_payment_id = db.next_payment_id ∧
      (allocLoop pid L db rem acc).1.rent_charges.map shape = db.rent_charges.map shape ∧
      (allocLoop pid L db rem acc).1.comm_charges.map shape = db.comm_charges.map shape ∧
      ∃ new, (allocLoop pid L db rem acc).1.allocations = db.allocations ++ new ∧
             (allocLoop pid L db rem acc).2.2 = acc ++ new ∧
             ∀ a ∈ new, a.payment_id = pid ∧ 0 < a.amount := by
  induction L with
  | nil =>
    intro db rem acc
    refine ⟨rfl, rfl, rfl, rfl, rfl, rfl, [], by simp [allocLoop], by simp [allocLoop], by simp⟩
  | cons hd rest ih =>
    obtain ⟨ct, ch⟩ := hd
    intro db rem acc
    by_cases hrem : rem ≤ eps
    · refine ⟨?_, ?_, ?_, ?_, ?_, ?_, [], ?_, ?_, by simp⟩ <;>
        simp [allocLoop, hrem]
    · set paid := get_paid_amount_for_charge db.allocations ch.id ct with hpaid
      by_cases hcr : ch.amount - paid ≤ eps
      · have heq : allocLoop pid ((ct, ch) :: rest) db rem acc
            = allocLoop pid rest db rem acc := by
          simp only [allocLoop]
          rw [if_neg hrem, ← hpaid, if_pos hcr]
        rw [heq]; exact ih db rem acc
      · -- allocation step
        set toAmt := min rem (ch.amount - paid) with htoAmt
        set alloc : PaymentAllocation :=
          { id := db.next_allocation_id, payment_id := pid, charge_id := ch.id,
            charge_type := ct, amount := toAmt } with halloc
        set db1 : DB :=
          { db with allocations := db.allocations ++ [alloc],
                    next_allocation_id := db.next_allocation_id + 1 } with hdb1
        set db2 := if ch.amount - eps ≤ paid + toAmt
                   then setChargeStatus db1 ct ch.id ChargeStatus.paid
                   else db1 with hdb2
        have heq : allocLoop pid ((ct, ch) :: rest) db rem acc
            = allocLoop pid rest db2 (rem - toAmt) (acc ++ [alloc]) := by
          simp only [allocLoop]
          rw [if_neg hrem, ← hpaid, if_neg hcr]
        have h2 := ih db2 (rem - toAmt) (acc ++ [alloc])
        -- facts about db2 relative to db
        have hb : db2.payments = db.payments ∧ db2.stays = db.stays ∧
            db2.objects = db.objects ∧ db2.next_payment_id = db.next_payment_id ∧
            db2.rent_charges.map shape = db.rent_charges.map shape ∧
            db2.comm_charges.map shape = db.comm_charges.map shape ∧
            db2.allocations = db.allocations ++ [alloc] := by
          rw [hdb2]
          split
          · exact ⟨by rw [setChargeStatus_payments],
              by rw [setChargeStatus_stays],
              by rw [setChargeStatus_objects],
              by rw [setChargeStatus_next_payment_id],
              by rw [setChargeStatus_rent_shape],
              by rw [setChargeStatus_comm_shape],
              by rw [setChargeStatus_allocations]⟩
          · exact ⟨rfl, rfl, rfl, rfl, rfl, rfl, rfl⟩
        obtain ⟨hb1, hb2, hb3, hb4, hb5, hb6, hb7⟩ := hb
        obtain ⟨g1, g2, g3, g4, g5, g6, new, gn1, gn2, gn3⟩ := h2
        rw [heq]
        refine ⟨by rw [g1, hb1], by rw [g2, hb2], by rw [g3, hb3], by rw [g4, hb4],
          by rw [g5, hb5], by rw [g6, hb6], alloc :: new, ?_, ?_, ?_⟩
        · rw [gn1, hb7]; simp
        · rw [gn2]; simp
        · intro a ha
          rcases List.mem_cons.mp ha with h | h
          · subst h
            refine ⟨rfl, ?_⟩
            have h1 : 0 < rem := lt_trans eps_pos (lt_of_not_le hrem)
            have h2 : 0 < ch.amount - paid := lt_trans eps_pos (lt_of_not_le hcr)
            simp only [halloc]
            exact lt_min h1 h2
          · exact gn3 a h


lemma allocLoop_rem_le (pid : Nat) (L : List (String × Charge)) (db : DB)
    (rem : Money) (acc : List PaymentAllocation) (h : rem ≤ eps) :
    allocLoop pid L db rem acc = (db, rem, acc) := by
  cases L with
  | nil => rfl
  | cons hd rest => obtain ⟨ct, ch⟩ := hd; simp [allocLoop, h]

/-- If every charge in the list is already covered up to the tolerance, the
allocation loop is a no-op. -/
lemma allocLoop_of_saturated (pid : Nat) (L : List (String × Charge)) :
    ∀ (db : DB) (rem : Money) (acc : List PaymentAllocation),
      (∀ pr ∈ L, pr.2.amount -
        get_paid_amount_for_charge db.allocations pr.2.id pr.1 ≤ eps) →
      allocLoop pid L db rem acc = (db, rem, acc) := by
  induction L with
  | nil => intro db rem acc _; rfl
  | cons hd rest ih =>
    obtain ⟨ct, ch⟩ := hd
    intro db rem acc hsat
    by_cases hrem : rem ≤ eps
    · simp [allocLoop, hrem]
    · have hcr : ch.amount - get_paid_amount_for_charge db.allocations ch.id ct ≤ eps :=
        hsat (ct, ch) (List.mem_cons_self _ _)
      have heq : allocLoop pid ((ct, ch) :: rest) db rem acc
          = allocLoop pid rest db rem acc := by
        simp only [allocLoop]
        rw [if_neg hrem, if_pos hcr]
      rw [heq]
      exact ih db rem acc (fun pr hpr => hsat pr (List.mem_cons_of_mem _ hpr))

/-- If the loop ends with more than `eps` still to distribute, every charge
it visited ends up covered to within the tolerance. -/
lemma allocLoop_saturates (pid : Nat) (L : List (String × Charge)) :
    ∀ (db : DB) (rem : Money) (acc : List PaymentAllocation),
      eps < (allocLoop pid L db rem acc).2.1 →
      ∀ pr ∈ L, pr.2.amount -
        get_paid_amount_for_charge (allocLoop pid L db rem acc).1.allocations pr.2.id pr.1
          ≤ eps := by
  induction L with
  | nil => intro db rem acc _ pr hpr; cases hpr
  | cons hd rest ih =>
    obtain ⟨ct, ch⟩ := hd
    intro db rem acc hfin pr hpr
    by_cases hrem : rem ≤ eps
    · rw [allocLoop_rem_le pid _ db rem acc hrem] at hfin
      exact absurd hfin (not_lt.mpr hrem)
    · set paid := get_paid_amount_for_charge db.allocations ch.id ct with hpaid
      by_cases hcr : ch.amount - paid ≤ eps
      · have heq : allocLoop pid ((ct, ch) :: rest) db rem acc
            = allocLoop pid rest db rem acc := by
          simp only [allocLoop]
          rw [if_neg hrem, ← hpaid, if_pos hcr]
        rw [heq] at hfin ⊢
        rcases List.mem_cons.mp hpr with h | h
        · -- head: already saturated in db, paid only grows
          subst h
          obtain ⟨-, -, -, -, -, -, new, hal, -, hpos⟩ := allocLoop_state pid rest db rem acc
          rw [hal, paid_append]
          have h0 : 0 ≤ get_paid_amount_for_charge new ch.id ct :=
            paid_nonneg new ch.id ct (fun a ha => le_of_lt (hpos a ha).2)
          have := hcr
          simp only at this ⊢
          linarith
        · exact ih db rem acc hfin pr h
      · set toAmt := min rem (ch.amount - paid) with htoAmt
        set alloc : PaymentAllocation :=
          { id := db.next_allocation_id, payment_id := pid, charge_id := ch.id,
            charge_type := ct, amount := toAmt } with halloc
        set db1 : DB :=
          { db with allocations := db.allocations ++ [alloc],
                    next_allocation_id := db.next_allocation_id + 1 } with hdb1
        set db2 := if ch.amount - eps ≤ paid + toAmt
                   then setChargeStatus db1 ct ch.id ChargeStatus.paid
                   else db1 with hdb2
        have heq : allocLoop pid ((ct, ch) :: rest) db rem acc
            = allocLoop pid rest db2 (rem - toAmt) (acc ++ [alloc]) := by
          simp only [allocLoop]
          rw [if_neg hrem, ← hpaid, if_neg hcr]
        rw [heq] at hfin ⊢
        -- the case toAmt = rem (< charge_remaining) would leave 0 remaining
        have hcase : toAmt = ch.amount - paid := by
          rcases le_total (ch.amount - paid) rem with hle | hle
          · rw [htoAmt, min_eq_right hle]
          · -- rem ≤ charge_remaining: toAmt = rem, remaining drops to 0
            have h0 : rem - toAmt ≤ eps := by
              rw [htoAmt, min_eq_left hle]
              simp [le_of_lt eps_pos]
            rw [allocLoop_rem_le pid rest db2 (rem - toAmt) (acc ++ [alloc]) h0] at hfin
            simp only at hfin
            exact absurd hfin (not_lt.mpr h0)
        have hpaid2 : get_paid_amount_for_charge db2.allocations ch.id ct = ch.amount := by
          have hda : db2.allocations = db.allocations ++ [alloc] := by
            rw [hdb2]
            split
            · rw [setChargeStatus_allocations]
            · rfl
          rw [hda, paid_append, paid_single]
          simp only [halloc]
          simp [hcase, ← hpaid]
        rcases List.mem_cons.mp hpr with h | h
        · subst h
          obtain ⟨-, -, -, -, -, -, new, hal, -, hpos⟩ :=
            allocLoop_state pid rest db2 (rem - toAmt) (acc ++ [alloc])
          rw [hal, paid_append, hpaid2]
          have h0 : 0 ≤ get_paid_amount_for_charge new ch.id ct :=
            paid_nonneg new ch.id ct (fun a ha => le_of_lt (hpos a ha).2)
          simp only
          have := le_of_lt eps_pos
          linarith
        · exact ih db2 (rem - toAmt) (acc ++ [alloc]) hfin pr h


lemma shape_eq_iff (c c' : Charge) :
    shape c = shape c' ↔
      c.id = c'.id ∧ c.stay_id = c'.stay_id ∧ c.month = c'.month ∧ c.amount = c'.amount := by
  simp [shape, Prod.ext_iff]

lemma mem_fetchStayCharges (db : DB) (s : Nat) (pr : String × Charge) :
    pr ∈ fetchStayCharges db s ↔
      pr ∈ (db.rent_charges.filter (fun c => c.stay_id == s)).map (fun c => ("rent", c)) ++
           (db.comm_charges.filter (fun c => c.stay_id == s)).map (fun c => ("comm", c)) := by
  unfold fetchStayCharges
  exact (List.perm_insertionSort _ _).mem_iff

/-- Charge-table states that agree up to status give month-sorted walk lists
whose entries correspond up to status. -/
lemma fetchStayCharges_shape_mem (db db' : DB) (s : Nat)
    (hr : db'.rent_charges.map shape = db.rent_charges.map shape)
    (hc : db'.comm_charges.map shape = db.comm_charges.map shape)
    (pr : String × Charge) (hpr : pr ∈ fetchStayCharges db' s) :
    ∃ c, (pr.1, c) ∈ fetchStayCharges db s ∧ shape c = shape pr.2 := by
  rw [mem_fetchStayCharges] at hpr
  rcases List.mem_append.mp hpr with h | h
  · obtain ⟨c', hc', hpr'⟩ := List.mem_map.mp h
    obtain ⟨hmem, hstay⟩ := List.mem_filter.mp hc'
    have hsh : shape c' ∈ db.rent_charges.map shape := by
      rw [← hr]; exact List.mem_map_of_mem shape hmem
    obtain ⟨c, hcm, hcs⟩ := List.mem_map.mp hsh
    refine ⟨c, ?_, by rw [← hpr']; exact hcs⟩
    rw [← hpr']
    rw [mem_fetchStayCharges]
    apply List.mem_append.mpr
    left
    apply List.mem_map_of_mem
    apply List.mem_filter.mpr
    refine ⟨hcm, ?_⟩
    have : c.stay_id = c'.stay_id := ((shape_eq_iff c c').mp hcs).2.1
    rw [this]; exact hstay
  · obtain ⟨c', hc', hpr'⟩ := List.mem_map.mp h
    obtain ⟨hmem, hstay⟩ := List.mem_filter.mp hc'
    have hsh : shape c' ∈ db.comm_charges.map shape := by
      rw [← hc]; exact List.mem_map_of_mem shape hmem
    obtain ⟨c, hcm, hcs⟩ := List.mem_map.mp hsh
    refine ⟨c, ?_, by rw [← hpr']; exact hcs⟩
    rw [← hpr']
    rw [mem_fetchStayCharges]
    apply List.mem_append.mpr
    right
    apply List.mem_map_of_mem
    apply List.mem_filter.mpr
    refine ⟨hcm, ?_⟩
    have : c.stay_id = c'.stay_id := ((shape_eq_iff c c').mp hcs).2.1
    rw [this]; exact hstay

/-- `updatePayment` with an id-preserving function commutes with row lookup. -/
lemma findPayment_updatePayment (db : DB) (pid : Nat) (f : Payment → Payment)
    (hf : ∀ p, (f p).id = p.id) :
    findPayment (updatePayment db pid f) pid
      = (findPayment db pid).map (fun p => if p.id == pid then f p else p) := by
  unfold findPayment updatePayment
  simp only
  rw [List.find?_map]
  have hpred : ((fun p => p.id == pid) ∘ fun p => if p.id == pid then f p else p)
      = (fun p : Payment => p.id == pid) := by
    funext p
    by_cases h : p.id == pid <;> simp [Function.comp, h, hf]
  rw [hpred]


lemma payment_update_id (p : Payment) (x y : Money)
    (hx : x = p.allocated_amount) (hy : y = p.unallocated_amount) :
    ({ p with allocated_amount := x, unallocated_amount := y } : Payment) = p := by
  cases p; simp_all

lemma db_eta_payments (db : DB) (l : List Payment) (h : l = db.payments) :
    ({ db with payments := l } : DB) = db := by
  cases db; simp_all

lemma updatePayment_eq_self (db : DB) (pid : Nat) (f : Payment → Payment)
    (h : ∀ p ∈ db.payments, p.id = pid → f p = p) :
    updatePayment db pid f = db := by
  unfold updatePayment
  apply db_eta_payments
  have hmap : db.payments.map (fun p => if p.id == pid then f p else p)
      = db.payments.map id := by
    apply List.map_congr_left
    intro p hp
    by_cases hid : p.id == pid
    · simp only [hid, if_pos]
      exact h p hp (by simpa using hid)
    · simp [hid]
  rw [hmap, List.map_id]

lemma findPayment_congr (db db' : DB) (pid : Nat) (h : db.payments = db'.payments) :
    findPayment db pid = findPayment db' pid := by
  unfold findPayment; rw [h]

lemma totalOf_update (p : Payment) (x y : Money) :
    totalOf ({ p with allocated_amount := x, unallocated_amount := y }) = totalOf p := rfl


/-- Characterization of a successful `allocate_payment` run past the
idempotency check. -/
lemma allocate_payment_run (db : DB) (pid : Nat) (P : Payment)
    (hfp : findPayment db pid = some P)
    (hre : ¬ (totalOf P - P.allocated_amount ≤ eps)) :
    allocate_payment db pid =
      .ok (updatePayment
            (allocLoop pid (fetchStayCharges db P.stay_id) db
              (totalOf P - P.allocated_amount) []).1 pid
            (fun p =>
              { p with
                allocated_amount := p.allocated_amount +
                  (totalOf P - P.allocated_amount -
                    (allocLoop pid (fetchStayCharges db P.stay_id) db
                      (totalOf P - P.allocated_amount) []).2.1),
                unallocated_amount :=
                  (allocLoop pid (fetchStayCharges db P.stay_id) db
                    (totalOf P - P.allocated_amount) []).2.1 }),
           (allocLoop pid (fetchStayCharges db P.stay_id) db
              (totalOf P - P.allocated_amount) []).2.2) := by
  unfold allocate_payment
  rw [hfp]
  simp only
  rw [if_neg hre]

lemma allocate_payment_noop (db : DB) (pid : Nat) (P : Payment)
    (hfp : findPayment db pid = some P)
    (hre : totalOf P - P.allocated_amount ≤ eps) :
    allocate_payment db pid = .ok (db, []) := by
  unfold allocate_payment
  rw [hfp]
  simp only
  rw [if_pos hre]

/-- C3 idempotence core. -/
theorem C3core (db db1 : DB) (pid : Nat) (l1 : List PaymentAllocation)
    (h1 : allocate_payment db pid = .ok (db1, l1)) :
    allocate_payment db1 pid = .ok (db1, []) := by
  cases hfp : findPayment db pid with
  | none => unfold allocate_payment at h1; rw [hfp] at h1; cases h1
  | some P =>
    by_cases hre : totalOf P - P.allocated_amount ≤ eps
    · rw [allocate_payment_noop db pid P hfp hre] at h1
      obtain ⟨h1a, h1b⟩ : db = db1 ∧ [] = l1 := by
        simpa [Prod.ext_iff] using h1
      rw [← h1a]
      exact allocate_payment_noop db pid P hfp hre
    · rw [allocate_payment_run db pid P hfp hre] at h1
      set T := totalOf P with hT
      set A := P.allocated_amount with hA
      set L := fetchStayCharges db P.stay_id with hL
      set r := allocLoop pid L db (T - A) [] with hr
      set R := r.2.1 with hR
      set f1 : Payment → Payment := (fun p =>
        { p with allocated_amount := p.allocated_amount + (T - A - R),
                 unallocated_amount := R }) with hf1
      have hdb1 : db1 = updatePayment r.1 pid f1 := by
        have := h1
        simp only [Except.ok.injEq, Prod.mk.injEq] at this
        exact this.1.symm
      -- the payment as the second call sees it
      have hPid : (P.id == pid) = true :=
        List.find?_some (p := fun p : Payment => p.id == pid) hfp
      have hfind1 : findPayment db1 pid = some (f1 P) := by
        rw [hdb1, findPayment_updatePayment r.1 pid f1 (fun p => rfl)]
        have : findPayment r.1 pid = some P := by
          rw [findPayment_congr r.1 db pid (allocLoop_state pid L db (T - A) []).1]
          exact hfp
        rw [this]
        show some (if P.id == pid then f1 P else P) = some (f1 P)
        rw [if_pos hPid]
      have hall1 : (f1 P).allocated_amount = A + (T - A - R) := rfl
      have hun1 : (f1 P).unallocated_amount = R := rfl
      have htot1 : totalOf (f1 P) = T := rfl
      have hrem2 : totalOf (f1 P) - (f1 P).allocated_amount = R := by
        rw [htot1, hall1]; ring
      by_cases hre2 : R ≤ eps
      · exact allocate_payment_noop db1 pid (f1 P) hfind1 (by rw [hrem2]; exact hre2)
      · -- saturated second round
        rw [allocate_payment_run db1 pid (f1 P) hfind1 (by rw [hrem2]; exact hre2)]
        have hstay1 : (f1 P).stay_id = P.stay_id := rfl
        set L2 := fetchStayCharges db1 (f1 P).stay_id with hL2
        have hsh_r : db1.rent_charges.map shape = db.rent_charges.map shape := by
          rw [hdb1]
          exact (allocLoop_state pid L db (T - A) []).2.2.2.2.1
        have hsh_c : db1.comm_charges.map shape = db.comm_charges.map shape := by
          rw [hdb1]
          exact (allocLoop_state pid L db (T - A) []).2.2.2.2.2.1
        have halloc1 : db1.allocations = r.1.allocations := by rw [hdb1]; rfl
        have hsat : ∀ pr ∈ L2, pr.2.amount -
            get_paid_amount_for_charge db1.allocations pr.2.id pr.1 ≤ eps := by
          intro pr hpr
          rw [hL2, hstay1] at hpr
          obtain ⟨c, hcL, hcs⟩ := fetchStayCharges_shape_mem db db1 P.stay_id hsh_r hsh_c pr hpr
          have hsatc := allocLoop_saturates pid L db (T - A) []
            (lt_of_not_le hre2) (pr.1, c) hcL
          obtain ⟨hid, -, -, hamt⟩ := (shape_eq_iff c pr.2).mp hcs
          rw [halloc1]
          simpa [hid, hamt] using hsatc
        have hloop2 : allocLoop pid L2 db1 (totalOf (f1 P) - (f1 P).allocated_amount) []
            = (db1, totalOf (f1 P) - (f1 P).allocated_amount, []) :=
          allocLoop_of_saturated pid L2 db1 _ [] hsat
        rw [hloop2]
        have hid2 : updatePayment db1 pid (fun p =>
                { p with
                  allocated_amount := p.allocated_amount +
                      (totalOf (f1 P) - (f1 P).allocated_amount -
                        (totalOf (f1 P) - (f1 P).allocated_amount)),
                  unallocated_amount := totalOf (f1 P) - (f1 P).allocated_amount })
            = db1 := by
          apply updatePayment_eq_self
          intro p hp hpid
          have hp' : p ∈ r.1.payments.map
              (fun q => if q.id == pid then f1 q else q) := by
            rw [hdb1] at hp
            exact hp
          obtain ⟨q, hq, hqe⟩ := List.mem_map.mp hp'
          have hqid : q.id = pid := by
            by_cases h : q.id == pid
            · simpa using h
            · rw [if_neg h] at hqe; rw [← hqe] at hpid; exact absurd hpid (by simpa using h)
          have hpq : p = f1 q := by
            rw [if_pos (show (q.id == pid) = true by simpa using hqid)] at hqe
            exact hqe.symm
          have hpu : p.unallocated_amount = R := by rw [hpq]
          apply payment_update_id
          · simp [hrem2]
          · simp [hrem2, hpu]
        rw [hid2]
  
/-- C3 no-op case at the claim's "in particular" level. -/
theorem C3noop (db : DB) (pid : Nat) (P : Payment)
    (h2 : findPayment db pid = some P)
    (h3 : -eps ≤ totalOf P - P.allocated_amount ∧ totalOf P - P.allocated_amount ≤ eps) :
    allocate_payment db pid = .ok (db, []) :=
  allocate_payment_noop db pid P h2 h3.2


lemma removeAllocation_payments (db : DB) (aid : Nat) :
    (removeAllocation db aid).payments = db.payments := rfl

lemma deallocLoop_payments (l : List PaymentAllocation) :
    ∀ db : DB, (deallocLoop l db).payments = db.payments := by
  induction l with
  | nil => intro db; rfl
  | cons a rest ih =>
    intro db
    unfold deallocLoop
    rw [ih, removeAllocation_payments]
    split
    · rfl
    · dsimp only
      split
      · split
        · rw [setChargeStatus_payments]
        · rfl
      · rfl

lemma cancelRevertLoop_payments (pid : Nat) (l : List PaymentAllocation) :
    ∀ db : DB, (cancelRevertLoop pid l db).payments = db.payments := by
  induction l with
  | nil => intro db; rfl
  | cons a rest ih =>
    intro db
    unfold cancelRevertLoop
    rw [ih]
    split
    · rfl
    · dsimp only
      split
      · rw [setChargeStatus_payments]
      · rfl

lemma cancelRevertLoop_allocations (pid : Nat) (l : List PaymentAllocation) :
    ∀ db : DB, (cancelRevertLoop pid l db).allocations = db.allocations := by
  induction l with
  | nil => intro db; rfl
  | cons a rest ih =>
    intro db
    unfold cancelRevertLoop
    rw [ih]
    split
    · rfl
    · dsimp only
      split
      · rw [setChargeStatus_allocations]
      · rfl

/-- Inversion of a successful `cancel_payment`: either the idempotent branch
fired, or the payment row was rewritten by `cancelUpdate` after the
allocation rollback. -/
lemma cancel_ok_inv (owners : List Nat) (now : Nat) (db : DB) (pid admin : Nat)
    (reason : String) (db' : DB) (flag : Bool)
    (h : cancel_payment owners now db pid admin reason = .ok (db', flag)) :
    flag = true ∧
    ((db' = db ∧ ∃ P, findPayment db pid = some P ∧ P.status = "cancelled") ∨
     db'.payments = db.payments.map
       (fun p => if p.id == pid then cancelUpdate admin now reason p else p)) := by
  unfold cancel_payment at h
  cases hfp : findPayment db pid with
  | none => rw [hfp] at h; cases h
  | some P =>
    rw [hfp] at h
    dsimp only at h
    by_cases hc : P.status = "cancelled"
    · rw [if_pos hc] at h
      have h' : db = db' ∧ true = flag := by
        simpa [Prod.ext_iff] using h
      exact ⟨h'.2.symm, Or.inl ⟨h'.1.symm, P, rfl, hc⟩⟩
    · rw [if_neg hc] at h
      split at h
      · cases h
      · split at h
        · cases h
        · simp only [Except.ok.injEq, Prod.mk.injEq] at h
          refine ⟨h.2.symm, Or.inr ?_⟩
          rw [← h.1]
          show (updatePayment _ pid (cancelUpdate admin now reason)).payments = _
          unfold updatePayment
          simp only
          congr 1
          exact cancelRevertLoop_payments pid _ db

lemma cancelUpdate_status (admin now : Nat) (reason : String) (p : Payment) :
    (cancelUpdate admin now reason p).status = "cancelled" := rfl

lemma cancelUpdate_id (admin now : Nat) (reason : String) (p : Payment) :
    (cancelUpdate admin now reason p).id = p.id := rfl


/-- Successful `mark_charge_as_paid`, fully explicit. -/
lemma mark_run (owners : List Nat) (now : Nat) (db : DB) (cid : Nat) (ct : String)
    (admin : Nat) (nm : String) (note : Option String) (charge : Charge)
    (stay : TenantStay) (obj : RentalObject)
    (hct : ct = "rent" ∨ ct = "comm")
    (hfc : findCharge db ct cid = some charge)
    (hs : charge.status ≠ ChargeStatus.paid)
    (hstay : findStay db charge.stay_id = some stay)
    (hobj : findObject db stay.object_id = some obj)
    (hauth : admin ∈ owners ∨ obj.owner_id = admin) :
    mark_charge_as_paid owners now db cid ct admin nm note =
      .ok (setChargeStatus
            { db with
              payments := db.payments ++ [markPayment now db charge ct admin nm note],
              allocations := db.allocations ++
                [{ id := db.next_allocation_id, payment_id := db.next_payment_id,
                   charge_id := cid, charge_type := ct, amount := charge.amount }],
              next_payment_id := db.next_payment_id + 1,
              next_allocation_id := db.next_allocation_id + 1 }
            ct cid ChargeStatus.paid,
          markPayment now db charge ct admin nm note) := by
  unfold mark_charge_as_paid
  rw [if_neg (by rcases hct with h | h <;> simp [h])]
  rw [hfc]
  dsimp only
  rw [if_neg hs, hstay]
  dsimp only
  rw [hobj]
  dsimp only
  rw [if_neg (by rcases hauth with h | h <;> simp [h])]
  rfl

/-- `mark_charge_as_paid` on an already-paid charge raises before any write. -/
lemma mark_already_paid (owners : List Nat) (now : Nat) (db : DB) (cid : Nat)
    (ct : String) (admin : Nat) (nm : String) (note : Option String) (charge : Charge)
    (hct : ct = "rent" ∨ ct = "comm")
    (hfc : findCharge db ct cid = some charge)
    (hs : charge.status = ChargeStatus.paid) :
    mark_charge_as_paid owners now db cid ct admin nm note = .error .alreadyPaid := by
  unfold mark_charge_as_paid
  rw [if_neg (by rcases hct with h | h <;> simp [h])]
  rw [hfc]
  dsimp only
  rw [if_pos hs]

/-- Inversion of a successful `mark_charge_as_paid`: the payment list grows by
exactly the synthesized payment, which balances exactly. -/
lemma mark_ok_inv (owners : List Nat) (now : Nat) (db : DB) (cid : Nat) (ct : String)
    (admin : Nat) (nm : String) (note : Option String) (db' : DB) (pay : Payment)
    (h : mark_charge_as_paid owners now db cid ct admin nm note = .ok (db', pay)) :
    db'.payments = db.payments ++ [pay] ∧
    pay.allocated_amount + pay.unallocated_amount = totalOf pay ∧
    pay.status = "confirmed" := by
  unfold mark_charge_as_paid at h
  split at h
  · cases h
  · split at h
    · cases h
    · rename_i charge hfc
      split at h
      · cases h
      · split at h
        · cases h
        · rename_i stay hstay
          split at h
          · cases h
          · rename_i obj hobj
            split at h
            · cases h
            · dsimp only at h
              simp only [Except.ok.injEq, Prod.mk.injEq] at h
              obtain ⟨hdb, hpay⟩ := h
              refine ⟨?_, ?_, ?_⟩
              · rw [← hdb, setChargeStatus_payments, ← hpay]
              · rw [← hpay]
                show charge.amount + 0 = totalOf (markPayment now db charge ct admin nm note)
                simp [markPayment, totalOf]
              · rw [← hpay]
                rfl

/-- The payment table after `deallocate_payment` when the payment exists. -/
lemma deallocate_payments_some (db : DB) (pid : Nat) (P : Payment)
    (hfp : findPayment db pid = some P) :
    (deallocate_payment db pid).payments = db.payments.map
      (fun p => if p.id == pid then
        { p with allocated_amount := 0, unallocated_amount := totalOf p } else p) := by
  unfold deallocate_payment
  have h1 : findPayment (deallocLoop (get_payment_allocations db pid) db) pid
      = some P := by
    rw [findPayment_congr _ db pid (deallocLoop_payments _ db)]
    exact hfp
  dsimp only
  rw [h1]
  show (updatePayment _ pid _).payments = _
  unfold updatePayment
  simp only
  congr 1
  exact deallocLoop_payments _ db

lemma deallocate_payments_none (db : DB) (pid : Nat)
    (hfp : findPayment db pid = none) :
    (deallocate_payment db pid).payments = db.payments := by
  unfold deallocate_payment
  have h1 : findPayment (deallocLoop (get_payment_allocations db pid) db) pid
      = none := by
    rw [findPayment_congr _ db pid (deallocLoop_payments _ db)]
    exact hfp
  dsimp only
  rw [h1]
  exact deallocLoop_payments _ db


/-- P1 conservation for one payment row:
`allocated_amount + unallocated_amount = total_amount` up to the 0.01
tolerance, stated with two-sided inequalities. -/
def conserves (p : Payment) : Prop :=
  -eps ≤ p.allocated_amount + p.unallocated_amount - totalOf p ∧
    p.allocated_amount + p.unallocated_amount - totalOf p ≤ eps

instance conservesDec (p : Payment) : Decidable (conserves p) := by
  unfold conserves; infer_instance

/-- Payments that P1, as corrected, does not constrain: an unprocessed
`pending_manual` payment (created with both running amounts still 0), and a
cancelled payment, which `cancel_payment` leaves with
`allocated_amount = unallocated_amount = 0` regardless of `total_amount`. -/
def p1Exempt (p : Payment) : Prop :=
  (p.status = "pending_manual" ∧ p.allocated_amount = 0 ∧ p.unallocated_amount = 0)
    ∨ p.status = "cancelled"

instance p1ExemptDec (p : Payment) : Decidable (p1Exempt p) := by
  unfold p1Exempt; infer_instance

/-- The conservation invariant over a database state. -/
def P1Inv (db : DB) : Prop :=
  ∀ p ∈ db.payments, ¬ p1Exempt p → conserves p

instance P1InvDec (db : DB) : Decidable (P1Inv db) := by
  unfold P1Inv; infer_instance

lemma P1Inv_of_payments_eq (db db' : DB) (h : db'.payments = db.payments)
    (hinv : P1Inv db) : P1Inv db' := by
  unfold P1Inv at hinv ⊢; rw [h]; exact hinv

lemma findPayment_mem (db : DB) (pid : Nat) (P : Payment)
    (h : findPayment db pid = some P) : P ∈ db.payments ∧ P.id = pid :=
  ⟨List.mem_of_find?_eq_some h,
   by simpa using List.find?_some (p := fun p : Payment => p.id == pid) h⟩

lemma conserves_of_zero (p : Payment)
    (h : p.allocated_amount + p.unallocated_amount - totalOf p = 0) : conserves p := by
  unfold conserves
  rw [h]
  constructor
  · exact neg_nonpos_of_nonneg (le_of_lt eps_pos)
  · exact le_of_lt eps_pos

lemma P1Inv_allocate (db : DB) (pid : Nat) (db' : DB) (l : List PaymentAllocation)
    (hnd : (db.payments.map (fun p => p.id)).Nodup)
    (h : allocate_payment db pid = .ok (db', l))
    (hinv : P1Inv db) : P1Inv db' := by
  cases hfp : findPayment db pid with
  | none => unfold allocate_payment at h; rw [hfp] at h; cases h
  | some P =>
    by_cases hre : totalOf P - P.allocated_amount ≤ eps
    · rw [allocate_payment_noop db pid P hfp hre] at h
      simp only [Except.ok.injEq, Prod.mk.injEq] at h
      exact P1Inv_of_payments_eq db db' (by rw [← h.1]) hinv
    · rw [allocate_payment_run db pid P hfp hre] at h
      simp only [Except.ok.injEq, Prod.mk.injEq] at h
      set T := totalOf P with hT
      set A := P.allocated_amount with hA
      set r := allocLoop pid (fetchStayCharges db P.stay_id) db (T - A) [] with hr
      set R := r.2.1 with hR
      have hpayments : db'.payments = db.payments.map
          (fun q => if q.id == pid then
            { q with allocated_amount := q.allocated_amount + (T - A - R),
                     unallocated_amount := R } else q) := by
        rw [← h.1]
        show (r.1.payments.map _) = _
        congr 1
        exact (allocLoop_state pid (fetchStayCharges db P.stay_id) db (T - A) []).1
      intro p' hp' hex
      rw [hpayments] at hp'
      obtain ⟨q, hq, hqe⟩ := List.mem_map.mp hp'
      by_cases hid : q.id == pid
      · rw [if_pos hid] at hqe
        have hqid : q.id = pid := by simpa using hid
        have hPm := findPayment_mem db pid P hfp
        have hqP : q = P :=
          List.inj_on_of_nodup_map hnd hq hPm.1 (by rw [hqid, hPm.2])
        subst hqP
        apply conserves_of_zero
        rw [← hqe]
        show A + (T - A - R) + R - T = 0
        ring
      · rw [if_neg hid] at hqe
        rw [← hqe]
        rw [← hqe] at hex
        exact hinv q hq hex

lemma P1Inv_deallocate (db : DB) (pid : Nat) (hinv : P1Inv db) :
    P1Inv (deallocate_payment db pid) := by
  cases hfp : findPayment db pid with
  | none =>
    exact P1Inv_of_payments_eq db _ (deallocate_payments_none db pid hfp) hinv
  | some P =>
    intro p' hp' hex
    rw [deallocate_payments_some db pid P hfp] at hp'
    obtain ⟨q, hq, hqe⟩ := List.mem_map.mp hp'
    by_cases hid : q.id == pid
    · rw [if_pos hid] at hqe
      apply conserves_of_zero
      rw [← hqe]
      show (0 : Money) + totalOf q - totalOf q = 0
      ring
    · rw [if_neg hid] at hqe
      rw [← hqe]
      rw [← hqe] at hex
      exact hinv q hq hex

lemma P1Inv_mark (owners : List Nat) (now : Nat) (db : DB) (cid : Nat) (ct : String)
    (admin : Nat) (nm : String) (note : Option String) (db' : DB) (pay : Payment)
    (h : mark_charge_as_paid owners now db cid ct admin nm note = .ok (db', pay))
    (hinv : P1Inv db) : P1Inv db' := by
  obtain ⟨hpays, hbal, -⟩ := mark_ok_inv owners now db cid ct admin nm note db' pay h
  intro p' hp' hex
  rw [hpays] at hp'
  rcases List.mem_append.mp hp' with hmem | hmem
  · exact hinv p' hmem hex
  · have : p' = pay := by simpa using hmem
    subst this
    exact conserves_of_zero p' (by rw [hbal]; ring)

lemma P1Inv_cancel (owners : List Nat) (now : Nat) (db : DB) (pid admin : Nat)
    (reason : String) (db' : DB) (flag : Bool)
    (h : cancel_payment owners now db pid admin reason = .ok (db', flag))
    (hinv : P1Inv db) : P1Inv db' := by
  obtain ⟨-, hcase⟩ := cancel_ok_inv owners now db pid admin reason db' flag h
  rcases hcase with ⟨hdb, -⟩ | hpays
  · rw [hdb]; exact hinv
  · intro p' hp' hex
    rw [hpays] at hp'
    obtain ⟨q, hq, hqe⟩ := List.mem_map.mp hp'
    by_cases hid : q.id == pid
    · rw [if_pos hid] at hqe
      exfalso
      apply hex
      right
      rw [← hqe]
      exact cancelUpdate_status admin now reason q
    · rw [if_neg hid] at hqe
      rw [← hqe]
      rw [← hqe] at hex
      exact hinv q hq hex


/-! ### Concrete scenario states -/

/-- Scenario: three pending rent charges 100000 (= 1000.00) for months 1..3 and a
confirmed payment of 150000 (= 1500.00) (spec P4). -/
def scenarioPayment1500 : Payment :=
  { id := 1, stay_id := 1, type := "rent", amount := 150000,
    total_amount := some 150000, allocated_amount := 0, unallocated_amount := 150000,
    method := "online", status := "confirmed", source := "photo",
    is_manual := false, marked_by := none, confirmed_at := some 0, meta_json := none }

def dbP4 : DB :=
  { payments := [scenarioPayment1500],
    rent_charges :=
      [{ id := 1, stay_id := 1, month := 1, amount := 100000, status := .pending },
       { id := 2, stay_id := 1, month := 2, amount := 100000, status := .pending },
       { id := 3, stay_id := 1, month := 3, amount := 100000, status := .pending }],
    comm_charges := [], allocations := [],
    stays := [{ id := 1, object_id := 1 }],
    objects := [{ id := 1, owner_id := 100 }],
    next_payment_id := 2, next_allocation_id := 1 }

def dbP4res : DB :=
  match allocate_payment dbP4 1 with
  | .ok (d, _) => d
  | .error _ => dbP4

def dbP4allocs : List PaymentAllocation :=
  match allocate_payment dbP4 1 with
  | .ok (_, l) => l
  | .error _ => []

/-- Scenario: a pending rent charge of 100000 already half covered by an
allocation of 50000 from payment 7. -/
def dbHalf : DB :=
  { payments := [],
    rent_charges := [{ id := 1, stay_id := 1, month := 1, amount := 100000, status := .pending }],
    comm_charges := [],
    allocations := [{ id := 1, payment_id := 7, charge_id := 1, charge_type := "rent", amount := 50000 }],
    stays := [{ id := 1, object_id := 1 }],
    objects := [{ id := 1, owner_id := 100 }],
    next_payment_id := 2, next_allocation_id := 2 }

def dbHalfMarkRes : DB :=
  match mark_charge_as_paid [] 0 dbHalf 1 "rent" 100 "Admin" none with
  | .ok (d, _) => d
  | .error _ => dbHalf

def dbHalfMarkPay : Payment :=
  match mark_charge_as_paid [] 0 dbHalf 1 "rent" 100 "Admin" none with
  | .ok (_, p) => p
  | .error _ => scenarioPayment1500

/-- Scenario: a pending (cancellable) payment of 10000 (= 100.00) with its full amount
still unallocated, conserved before cancellation. -/
def pendingPayment100 : Payment :=
  { id := 1, stay_id := 1, type := "rent", amount := 10000,
    total_amount := some 10000, allocated_amount := 0, unallocated_amount := 10000,
    method := "online", status := "pending", source := "photo",
    is_manual := false, marked_by := none, confirmed_at := none, meta_json := none }

def dbPending : DB :=
  { payments := [pendingPayment100],
    rent_charges := [], comm_charges := [], allocations := [],
    stays := [{ id := 1, object_id := 1 }],
    objects := [{ id := 1, owner_id := 5 }],
    next_payment_id := 2, next_allocation_id := 1 }

def dbPendingCancelRes : DB :=
  match cancel_payment [5] 0 dbPending 1 5 "err" with
  | .ok (d, _) => d
  | .error _ => dbPending



/-- **C1** counterexample: cancelling a pending payment of 10000 (= 100.00)
zeroes both `allocated_amount` and `unallocated_amount` (payment_service.py
lines 488-489), so afterwards `allocated + unallocated = 0 ≠ total_amount`
although the payment's status ("cancelled") is not an unprocessed
pending_manual.  The claim's conservation statement therefore fails after
`cancel_payment`. -/
theorem C1_counterexample :
    cancel_payment [5] 0 dbPending 1 5 "err" = .ok (dbPendingCancelRes, true) ∧
    ∃ p ∈ dbPendingCancelRes.payments,
      p.status ≠ "pending_manual" ∧ p.allocated_amount = 0 ∧
      p.unallocated_amount = 0 ∧ totalOf p = 10000 ∧ ¬ conserves p := by
  decide

/-- **C1** (amended).  Conservation `allocated_amount + unallocated_amount =
total_amount` (within 0.01) is preserved by `allocate_payment`,
`deallocate_payment` and `mark_charge_as_paid` for every payment whose status
is not an unprocessed pending_manual; `cancel_payment` preserves it for every
payment other than the cancelled one, which it instead leaves with
`allocated_amount = unallocated_amount = 0`, so cancelled payments must also
be exempted from the invariant. -/
theorem C1_conservation
    (dbA : DB) (pidA : Nat) (dbA' : DB) (lA : List PaymentAllocation)
    (dbB : DB) (pidB : Nat)
    (ownersC : List Nat) (nowC : Nat) (dbC : DB) (cidC : Nat) (ctC : String)
    (adminC : Nat) (nmC : String) (noteC : Option String) (dbC' : DB) (payC : Payment)
    (ownersD : List Nat) (nowD : Nat) (dbD : DB) (pidD adminD : Nat)
    (reasonD : String) (dbD' : DB) (flagD : Bool)
    (hndA : (dbA.payments.map (fun p => p.id)).Nodup)
    (hA : allocate_payment dbA pidA = .ok (dbA', lA)) (hAinv : P1Inv dbA)
    (hBinv : P1Inv dbB)
    (hC : mark_charge_as_paid ownersC nowC dbC cidC ctC adminC nmC noteC = .ok (dbC', payC))
    (hCinv : P1Inv dbC)
    (hD : cancel_payment ownersD nowD dbD pidD adminD reasonD = .ok (dbD', flagD))
    (hDinv : P1Inv dbD) :
    P1Inv dbA' ∧ P1Inv (deallocate_payment dbB pidB) ∧ P1Inv dbC' ∧ P1Inv dbD' :=
  ⟨P1Inv_allocate dbA pidA dbA' lA hndA hA hAinv,
   P1Inv_deallocate dbB pidB hBinv,
   P1Inv_mark ownersC nowC dbC cidC ctC adminC nmC noteC dbC' payC hC hCinv,
   P1Inv_cancel ownersD nowD dbD pidD adminD reasonD dbD' flagD hD hDinv⟩

/-- Witness for `C1_conservation` at concrete states. -/
theorem C1_conservation_witness :
    P1Inv dbP4res ∧ P1Inv (deallocate_payment dbP4 1) ∧
    P1Inv dbHalfMarkRes ∧ P1Inv dbPendingCancelRes :=
  C1_conservation dbP4 1 dbP4res dbP4allocs dbP4 1
    [] 0 dbHalf 1 "rent" 100 "Admin" none dbHalfMarkRes dbHalfMarkPay
    [5] 0 dbPending 1 5 "err" dbPendingCancelRes true
    (by decide) (by decide) (by decide) (by decide)
    (by decide) (by decide) (by decide) (by decide)


/-- The walk list of `allocate_payment` is sorted ascending by month. -/
lemma fetchStayCharges_sorted (db : DB) (s : Nat) :
    List.Sorted (fun x y : String × Charge => x.2.month ≤ y.2.month)
      (fetchStayCharges db s) := by
  unfold fetchStayCharges
  letI : IsTotal (String × Charge) (fun x y => x.2.month ≤ y.2.month) :=
    ⟨fun a b => Nat.le_total a.2.month b.2.month⟩
  letI : IsTrans (String × Charge) (fun x y => x.2.month ≤ y.2.month) :=
    ⟨fun a b c hab hbc => Nat.le_trans hab hbc⟩
  exact List.sorted_insertionSort _ _

/-- The walk list of `allocate_payment` contains exactly the stay's rent and
communal charges, tagged with their kind. -/
lemma fetchStayCharges_mem_iff (db : DB) (s : Nat) (ct : String) (c : Charge) :
    (ct, c) ∈ fetchStayCharges db s ↔
      ((ct = "rent" ∧ c ∈ db.rent_charges) ∨ (ct = "comm" ∧ c ∈ db.comm_charges)) ∧
        c.stay_id = s := by
  rw [mem_fetchStayCharges]
  simp only [List.mem_append, List.mem_map, List.mem_filter, Prod.mk.injEq]
  constructor
  · rintro (⟨c', ⟨hm, hs⟩, hct, hc⟩ | ⟨c', ⟨hm, hs⟩, hct, hc⟩)
    · subst hc
      exact ⟨Or.inl ⟨hct.symm, hm⟩, by simpa using hs⟩
    · subst hc
      exact ⟨Or.inr ⟨hct.symm, hm⟩, by simpa using hs⟩
  · rintro ⟨⟨hct, hm⟩ | ⟨hct, hm⟩, hs⟩
    · exact Or.inl ⟨c, ⟨hm, by simpa using hs⟩, hct.symm, rfl⟩
    · exact Or.inr ⟨c, ⟨hm, by simpa using hs⟩, hct.symm, rfl⟩

/-- Allocations returned by a successful `allocate_payment` all belong to the
allocated payment and are strictly positive. -/
lemma allocate_payment_allocs (db : DB) (pid : Nat) (db' : DB)
    (l : List PaymentAllocation) (h : allocate_payment db pid = .ok (db', l)) :
    ∀ a ∈ l, a.payment_id = pid ∧ 0 < a.amount := by
  cases hfp : findPayment db pid with
  | none => unfold allocate_payment at h; rw [hfp] at h; cases h
  | some P =>
    by_cases hre : totalOf P - P.allocated_amount ≤ eps
    · rw [allocate_payment_noop db pid P hfp hre] at h
      simp only [Except.ok.injEq, Prod.mk.injEq] at h
      rw [← h.2]
      intro a ha
      cases ha
    · rw [allocate_payment_run db pid P hfp hre] at h
      simp only [Except.ok.injEq, Prod.mk.injEq] at h
      obtain ⟨-, -, -, -, -, -, new, -, hacc, hprops⟩ :=
        allocLoop_state pid (fetchStayCharges db P.stay_id) db
          (totalOf P - P.allocated_amount) []
      rw [← h.2, hacc]
      simpa using hprops


/-- **C2**: FIFO allocation.  The walk list is the stay's rent and communal
charges merged and sorted ascending by month; every created allocation
belongs to the payment and is positive; and on the spec's P4 instance
(charges Jan/Feb/Mar of 1000.00 pending, payment 1500.00) Jan is fully paid,
Feb receives 500.00, Mar receives nothing and the payment ends fully
allocated with `unallocated_amount = 0`. -/
theorem C2_fifo (db0 : DB) (pid0 : Nat) (db0' : DB) (l0 : List PaymentAllocation)
    (h0 : allocate_payment db0 pid0 = .ok (db0', l0)) :
    (∀ (db : DB) (s : Nat),
        List.Sorted (fun x y : String × Charge => x.2.month ≤ y.2.month)
          (fetchStayCharges db s)) ∧
    (∀ (db : DB) (s : Nat) (ct : String) (c : Charge),
        (ct, c) ∈ fetchStayCharges db s ↔
          ((ct = "rent" ∧ c ∈ db.rent_charges) ∨ (ct = "comm" ∧ c ∈ db.comm_charges)) ∧
            c.stay_id = s) ∧
    (∀ a ∈ l0, a.payment_id = pid0 ∧ 0 < a.amount) ∧
    (allocate_payment dbP4 1 = .ok (dbP4res, dbP4allocs) ∧
     dbP4allocs =
       [{ id := 1, payment_id := 1, charge_id := 1, charge_type := "rent", amount := 100000 },
        { id := 2, payment_id := 1, charge_id := 2, charge_type := "rent", amount := 50000 }] ∧
     dbP4res.rent_charges.map (fun c => c.status) =
       [ChargeStatus.paid, ChargeStatus.pending, ChargeStatus.pending] ∧
     get_paid_amount_for_charge dbP4res.allocations 1 "rent" = 100000 ∧
     get_paid_amount_for_charge dbP4res.allocations 2 "rent" = 50000 ∧
     get_paid_amount_for_charge dbP4res.allocations 3 "rent" = 0 ∧
     findPayment dbP4res 1 = some { scenarioPayment1500 with
       allocated_amount := 150000, unallocated_amount := 0 }) :=
  ⟨fetchStayCharges_sorted,
   fetchStayCharges_mem_iff,
   allocate_payment_allocs db0 pid0 db0' l0 h0,
   by decide⟩

/-- Witness for `C2_fifo` at the P4 state itself. -/
theorem C2_fifo_witness :
    (∀ (db : DB) (s : Nat),
        List.Sorted (fun x y : String × Charge => x.2.month ≤ y.2.month)
          (fetchStayCharges db s)) ∧
    (∀ (db : DB) (s : Nat) (ct : String) (c : Charge),
        (ct, c) ∈ fetchStayCharges db s ↔
          ((ct = "rent" ∧ c ∈ db.rent_charges) ∨ (ct = "comm" ∧ c ∈ db.comm_charges)) ∧
            c.stay_id = s) ∧
    (∀ a ∈ dbP4allocs, a.payment_id = 1 ∧ 0 < a.amount) ∧
    (allocate_payment dbP4 1 = .ok (dbP4res, dbP4allocs) ∧
     dbP4allocs =
       [{ id := 1, payment_id := 1, charge_id := 1, charge_type := "rent", amount := 100000 },
        { id := 2, payment_id := 1, charge_id := 2, charge_type := "rent", amount := 50000 }] ∧
     dbP4res.rent_charges.map (fun c => c.status) =
       [ChargeStatus.paid, ChargeStatus.pending, ChargeStatus.pending] ∧
     get_paid_amount_for_charge dbP4res.allocations 1 "rent" = 100000 ∧
     get_paid_amount_for_charge dbP4res.allocations 2 "rent" = 50000 ∧
     get_paid_amount_for_charge dbP4res.allocations 3 "rent" = 0 ∧
     findPayment dbP4res 1 = some { scenarioPayment1500 with
       allocated_amount := 150000, unallocated_amount := 0 }) :=
  C2_fifo dbP4 1 dbP4res dbP4allocs (by decide)


/-- **C3**: allocation idempotence.  A second `allocate_payment` immediately
after a successful first run returns the state of the first run unchanged
together with an empty list; and on any payment already fully allocated
(within 0.01) the call creates nothing and returns an empty list. -/
theorem C3_idempotent (db db1 : DB) (pid : Nat) (l1 : List PaymentAllocation)
    (dbB : DB) (pidB : Nat) (pB : Payment)
    (h1 : allocate_payment db pid = .ok (db1, l1))
    (h2 : findPayment dbB pidB = some pB)
    (h3 : -eps ≤ totalOf pB - pB.allocated_amount ∧
          totalOf pB - pB.allocated_amount ≤ eps) :
    allocate_payment db1 pid = .ok (db1, []) ∧
    allocate_payment dbB pidB = .ok (dbB, []) :=
  ⟨C3core db db1 pid l1 h1, C3noop dbB pidB pB h2 h3⟩

/-- Witness for `C3_idempotent`: re-allocating the P4 state. -/
theorem C3_idempotent_witness :
    allocate_payment dbP4res 1 = .ok (dbP4res, []) ∧
    allocate_payment dbP4res 1 = .ok (dbP4res, []) :=
  C3_idempotent dbP4 dbP4res 1 dbP4allocs dbP4res 1
    { scenarioPayment1500 with allocated_amount := 150000, unallocated_amount := 0 }
    (by decide) (by decide) (by decide)


/-- P2: no charge is covered beyond its amount (+0.01). -/
def chargeBound (db : DB) : Prop :=
  (∀ c ∈ db.rent_charges,
      get_paid_amount_for_charge db.allocations c.id "rent" ≤ c.amount + eps) ∧
  (∀ c ∈ db.comm_charges,
      get_paid_amount_for_charge db.allocations c.id "comm" ≤ c.amount + eps)

instance chargeBoundDec (db : DB) : Decidable (chargeBound db) := by
  unfold chargeBound; infer_instance

lemma bound_side_transfer (R R' : List Charge) (allocs : List PaymentAllocation)
    (ct : String) (hsh : R'.map shape = R.map shape)
    (hb : ∀ c ∈ R, get_paid_amount_for_charge allocs c.id ct ≤ c.amount + eps) :
    ∀ c' ∈ R', get_paid_amount_for_charge allocs c'.id ct ≤ c'.amount + eps := by
  intro c' hc'
  have : shape c' ∈ R.map shape := by
    rw [← hsh]; exact List.mem_map_of_mem shape hc'
  obtain ⟨c, hc, hcs⟩ := List.mem_map.mp this
  obtain ⟨hid, -, -, hamt⟩ := (shape_eq_iff c c').mp hcs
  rw [← hid, ← hamt]
  exact hb c hc

/-- One allocation step extends a charge's covered sum by the allocation's
amount exactly when it targets that charge. -/
lemma paid_snoc (l : List PaymentAllocation) (a : PaymentAllocation)
    (cid : Nat) (ct : String) :
    get_paid_amount_for_charge (l ++ [a]) cid ct =
      get_paid_amount_for_charge l cid ct +
        (if a.charge_id == cid && a.charge_type == ct then a.amount else 0) := by
  rw [paid_append, paid_single]

/-- The allocation loop never pushes a charge of either reference table past
its amount (+0.01), provided charge ids are unique per table and every walked
charge is (up to status) a row of its table. -/
lemma allocLoop_bound (pid : Nat) (R C : List Charge)
    (hndR : (R.map (fun c => c.id)).Nodup) (hndC : (C.map (fun c => c.id)).Nodup)
    (L : List (String × Charge)) :
    ∀ (db : DB) (rem : Money) (acc : List PaymentAllocation),
      (∀ pr ∈ L, (pr.1 = "rent" ∧ ∃ c ∈ R, shape c = shape pr.2) ∨
                 (pr.1 = "comm" ∧ ∃ c ∈ C, shape c = shape pr.2)) →
      (∀ c ∈ R, get_paid_amount_for_charge db.allocations c.id "rent" ≤ c.amount + eps) →
      (∀ c ∈ C, get_paid_amount_for_charge db.allocations c.id "comm" ≤ c.amount + eps) →
      (∀ c ∈ R, get_paid_amount_for_charge (allocLoop pid L db rem acc).1.allocations c.id "rent"
          ≤ c.amount + eps) ∧
      (∀ c ∈ C, get_paid_amount_for_charge (allocLoop pid L db rem acc).1.allocations c.id "comm"
          ≤ c.amount + eps) := by
  induction L with
  | nil => intro db rem acc _ hbR hbC; exact ⟨hbR, hbC⟩
  | cons hd rest ih =>
    obtain ⟨ct, ch⟩ := hd
    intro db rem acc hL hbR hbC
    by_cases hrem : rem ≤ eps
    · rw [allocLoop_rem_le pid _ db rem acc hrem]
      exact ⟨hbR, hbC⟩
    · set paid := get_paid_amount_for_charge db.allocations ch.id ct with hpaid
      by_cases hcr : ch.amount - paid ≤ eps
      · have heq : allocLoop pid ((ct, ch) :: rest) db rem acc
            = allocLoop pid rest db rem acc := by
          simp only [allocLoop]
          rw [if_neg hrem, ← hpaid, if_pos hcr]
        rw [heq]
        exact ih db rem acc (fun pr hpr => hL pr (List.mem_cons_of_mem _ hpr)) hbR hbC
      · set toAmt := min rem (ch.amount - paid) with htoAmt
        set alloc : PaymentAllocation :=
          { id := db.next_allocation_id, payment_id := pid, charge_id := ch.id,
            charge_type := ct, amount := toAmt } with halloc
        set db1 : DB :=
          { db with allocations := db.allocations ++ [alloc],
                    next_allocation_id := db.next_allocation_id + 1 } with hdb1
        set db2 := if ch.amount - eps ≤ paid + toAmt
                   then setChargeStatus db1 ct ch.id ChargeStatus.paid
                   else db1 with hdb2
        have heq : allocLoop pid ((ct, ch) :: rest) db rem acc
            = allocLoop pid rest db2 (rem - toAmt) (acc ++ [alloc]) := by
          simp only [allocLoop]
          rw [if_neg hrem, ← hpaid, if_neg hcr]
        rw [heq]
        have hda : db2.allocations = db.allocations ++ [alloc] := by
          rw [hdb2]; split
          · rw [setChargeStatus_allocations]
          · rfl
        -- the bound survives the single new allocation
        have hstep : ∀ (T : List Charge) (tct : String),
            (T.map (fun c => c.id)).Nodup →
            (ct = tct → ∃ c ∈ T, shape c = shape ch) →
            (∀ c ∈ T, get_paid_amount_for_charge db.allocations c.id tct ≤ c.amount + eps) →
            ∀ c ∈ T, get_paid_amount_for_charge db2.allocations c.id tct ≤ c.amount + eps := by
          intro T tct hnd hshape hb c hc
          rw [hda, paid_snoc]
          by_cases hmatch : alloc.charge_id == c.id && alloc.charge_type == tct
          · have hm' : ch.id = c.id ∧ ct = tct := by
              simpa [halloc] using hmatch
            have hcid : ch.id = c.id := hm'.1
            have hct : ct = tct := hm'.2
            obtain ⟨c', hc', hcs⟩ := hshape hct
            obtain ⟨hid', -, -, hamt'⟩ := (shape_eq_iff c' ch).mp hcs
            have hcc : c = c' :=
              List.inj_on_of_nodup_map hnd hc hc' (by rw [← hcid, hid'])
            have hamtc : c.amount = ch.amount := by rw [hcc, hamt']
            have hpc : get_paid_amount_for_charge db.allocations c.id tct = paid := by
              rw [hpaid, ← hcid, ← hct]
            rw [if_pos hmatch, hpc]
            have h1 : toAmt ≤ ch.amount - paid := min_le_right _ _
            have h2 : alloc.amount = toAmt := rfl
            rw [h2, hamtc]
            have := le_of_lt eps_pos
            linarith
          · rw [if_neg hmatch, add_zero]
            exact hb c hc
        have hLhd := hL (ct, ch) (List.mem_cons_self _ _)
        refine ih db2 (rem - toAmt) (acc ++ [alloc])
          (fun pr hpr => hL pr (List.mem_cons_of_mem _ hpr)) ?_ ?_
        · refine hstep R "rent" hndR ?_ hbR
          intro hct
          rcases hLhd with ⟨h1, h2⟩ | ⟨h1, h2⟩
          · exact h2
          · rw [hct] at h1; simp at h1
        · refine hstep C "comm" hndC ?_ hbC
          intro hct
          rcases hLhd with ⟨h1, h2⟩ | ⟨h1, h2⟩
          · rw [hct] at h1; simp at h1
          · exact h2


lemma findCharge_mem (db : DB) (ct : String) (cid : Nat) (c : Charge)
    (h : findCharge db ct cid = some c) : c ∈ chargesOf db ct ∧ c.id = cid :=
  ⟨List.mem_of_find?_eq_some h,
   by simpa using List.find?_some (p := fun c : Charge => c.id == cid) h⟩

/-- State effect of a successful `mark_charge_as_paid`. -/
lemma mark_ok_state (owners : List Nat) (now : Nat) (db : DB) (cid : Nat) (ct : String)
    (admin : Nat) (nm : String) (note : Option String) (db' : DB) (pay : Payment)
    (h : mark_charge_as_paid owners now db cid ct admin nm note = .ok (db', pay)) :
    ∃ charge, findCharge db ct cid = some charge ∧
      charge.status ≠ ChargeStatus.paid ∧
      db'.allocations = db.allocations ++
        [{ id := db.next_allocation_id, payment_id := db.next_payment_id,
           charge_id := cid, charge_type := ct, amount := charge.amount }] ∧
      db'.rent_charges.map shape = db.rent_charges.map shape ∧
      db'.comm_charges.map shape = db.comm_charges.map shape := by
  unfold mark_charge_as_paid at h
  split at h
  · cases h
  · split at h
    · cases h
    · rename_i charge hfc
      split at h
      · cases h
      · rename_i hst
        split at h
        · cases h
        · split at h
          · cases h
          · split at h
            · cases h
            · dsimp only at h
              simp only [Except.ok.injEq, Prod.mk.injEq] at h
              refine ⟨charge, hfc, hst, ?_, ?_, ?_⟩
              · rw [← h.1, setChargeStatus_allocations]
                rfl
              · rw [← h.1, setChargeStatus_rent_shape]
              · rw [← h.1, setChargeStatus_comm_shape]

/-- `allocate_payment` preserves P2. -/
lemma chargeBound_allocate (db : DB) (pid : Nat) (db' : DB)
    (l : List PaymentAllocation)
    (hndR : (db.rent_charges.map (fun c => c.id)).Nodup)
    (hndC : (db.comm_charges.map (fun c => c.id)).Nodup)
    (h : allocate_payment db pid = .ok (db', l)) (hb : chargeBound db) :
    chargeBound db' := by
  cases hfp : findPayment db pid with
  | none => unfold allocate_payment at h; rw [hfp] at h; cases h
  | some P =>
    by_cases hre : totalOf P - P.allocated_amount ≤ eps
    · rw [allocate_payment_noop db pid P hfp hre] at h
      simp only [Except.ok.injEq, Prod.mk.injEq] at h
      rw [← h.1]; exact hb
    · rw [allocate_payment_run db pid P hfp hre] at h
      simp only [Except.ok.injEq, Prod.mk.injEq] at h
      set L := fetchStayCharges db P.stay_id with hL
      set r := allocLoop pid L db (totalOf P - P.allocated_amount) [] with hr
      have hLmem : ∀ pr ∈ L, (pr.1 = "rent" ∧ ∃ c ∈ db.rent_charges, shape c = shape pr.2)
          ∨ (pr.1 = "comm" ∧ ∃ c ∈ db.comm_charges, shape c = shape pr.2) := by
        intro pr hpr
        obtain ⟨ct, c⟩ := pr
        rcases ((fetchStayCharges_mem_iff db P.stay_id ct c).mp hpr).1 with ⟨hct, hm⟩ | ⟨hct, hm⟩
        · exact Or.inl ⟨hct, c, hm, rfl⟩
        · exact Or.inr ⟨hct, c, hm, rfl⟩
      obtain ⟨hbndR, hbndC⟩ := allocLoop_bound pid db.rent_charges db.comm_charges
        hndR hndC L db (totalOf P - P.allocated_amount) [] hLmem hb.1 hb.2
      have hallocs : db'.allocations = r.1.allocations := by rw [← h.1]; rfl
      have hshr : db'.rent_charges.map shape = db.rent_charges.map shape := by
        rw [← h.1]
        exact (allocLoop_state pid L db (totalOf P - P.allocated_amount) []).2.2.2.2.1
      have hshc : db'.comm_charges.map shape = db.comm_charges.map shape := by
        rw [← h.1]
        exact (allocLoop_state pid L db (totalOf P - P.allocated_amount) []).2.2.2.2.2.1
      constructor
      · intro c' hc'
        rw [hallocs]
        exact bound_side_transfer db.rent_charges db'.rent_charges r.1.allocations
          "rent" hshr hbndR c' hc'
      · intro c' hc'
        rw [hallocs]
        exact bound_side_transfer db.comm_charges db'.comm_charges r.1.allocations
          "comm" hshc hbndC c' hc'


/-- `mark_charge_as_paid` preserves P2 when the target charge has no prior
allocation coverage. -/
lemma chargeBound_mark (owners : List Nat) (now : Nat) (db : DB) (cid : Nat)
    (ct : String) (admin : Nat) (nm : String) (note : Option String)
    (db' : DB) (pay : Payment)
    (hndR : (db.rent_charges.map (fun c => c.id)).Nodup)
    (hndC : (db.comm_charges.map (fun c => c.id)).Nodup)
    (h : mark_charge_as_paid owners now db cid ct admin nm note = .ok (db', pay))
    (hb : chargeBound db)
    (hzero : get_paid_amount_for_charge db.allocations cid ct = 0) :
    chargeBound db' := by
  obtain ⟨charge, hfc, -, hallocs, hshr, hshc⟩ :=
    mark_ok_state owners now db cid ct admin nm note db' pay h
  obtain ⟨hchm, hchid⟩ := findCharge_mem db ct cid charge hfc
  have hside : ∀ (T T' : List Charge) (tct : String),
      (T.map (fun c => c.id)).Nodup →
      T'.map shape = T.map shape →
      (ct = tct → charge ∈ T) →
      (∀ c ∈ T, get_paid_amount_for_charge db.allocations c.id tct ≤ c.amount + eps) →
      ∀ c' ∈ T', get_paid_amount_for_charge db'.allocations c'.id tct ≤ c'.amount + eps := by
    intro T T' tct hnd hsh hchT hbT c' hc'
    have : shape c' ∈ T.map shape := by
      rw [← hsh]; exact List.mem_map_of_mem shape hc'
    obtain ⟨c, hc, hcs⟩ := List.mem_map.mp this
    obtain ⟨hid, -, -, hamt⟩ := (shape_eq_iff c c').mp hcs
    rw [hallocs, paid_snoc]
    by_cases hmatch :
        ({ id := db.next_allocation_id, payment_id := db.next_payment_id,
           charge_id := cid, charge_type := ct,
           amount := charge.amount } : PaymentAllocation).charge_id == c'.id &&
        ({ id := db.next_allocation_id, payment_id := db.next_payment_id,
           charge_id := cid, charge_type := ct,
           amount := charge.amount } : PaymentAllocation).charge_type == tct
    · have hm' : cid = c'.id ∧ ct = tct := by simpa using hmatch
      have hcharge : charge ∈ T := hchT hm'.2
      have hcc : c = charge :=
        List.inj_on_of_nodup_map hnd hc hcharge (by rw [hid, ← hm'.1, hchid])
      have hpz : get_paid_amount_for_charge db.allocations c'.id tct = 0 := by
        rw [← hm'.1, ← hm'.2]
        exact hzero
      rw [if_pos hmatch, hpz]
      have hamt' : c'.amount = charge.amount := by rw [← hamt, hcc]
      simp only
      rw [hamt']
      have := le_of_lt eps_pos
      linarith
    · rw [if_neg hmatch, add_zero]
      rw [← hid, ← hamt]
      exact hbT c hc
  have hctcases : ct = "rent" ∨ ct = "comm" := by
    unfold mark_charge_as_paid at h
    split at h
    · cases h
    · rename_i hcond
      by_cases h1 : ct = "rent"
      · exact Or.inl h1
      · by_cases h2 : ct = "comm"
        · exact Or.inr h2
        · exact absurd ⟨h1, h2⟩ hcond
  constructor
  · refine hside db.rent_charges db'.rent_charges "rent" hndR hshr ?_ hb.1
    intro hct
    have : chargesOf db ct = db.rent_charges := by
      unfold chargesOf; rw [if_pos (by simpa using hct)]
    rw [← this]; exact hchm
  · refine hside db.comm_charges db'.comm_charges "comm" hndC hshc ?_ hb.2
    intro hct
    have : chargesOf db ct = db.comm_charges := by
      unfold chargesOf
      rw [if_neg]
      simp [hct]
    rw [← this]; exact hchm


/-- Scenario: a single uncovered pending rent charge of 1000.00. -/
def dbPristine : DB :=
  { payments := [],
    rent_charges := [{ id := 1, stay_id := 1, month := 1, amount := 100000, status := .pending }],
    comm_charges := [], allocations := [],
    stays := [{ id := 1, object_id := 1 }],
    objects := [{ id := 1, owner_id := 100 }],
    next_payment_id := 1, next_allocation_id := 1 }

def dbPristineMarkRes : DB :=
  match mark_charge_as_paid [] 0 dbPristine 1 "rent" 100 "Admin" none with
  | .ok (d, _) => d
  | .error _ => dbPristine

def dbPristineMarkPay : Payment :=
  match mark_charge_as_paid [] 0 dbPristine 1 "rent" 100 "Admin" none with
  | .ok (_, p) => p
  | .error _ => scenarioPayment1500


/-- **C4** counterexample: `mark_charge_as_paid` on a pending charge of
1000.00 that already carries a 500.00 allocation creates a further
allocation of the full 1000.00, pushing the charge's covered sum to 1500.00,
beyond `charge.amount + 0.01` — even though the bound held beforehand. -/
theorem C4_counterexample :
    chargeBound dbHalf ∧
    mark_charge_as_paid [] 0 dbHalf 1 "rent" 100 "Admin" none
      = .ok (dbHalfMarkRes, dbHalfMarkPay) ∧
    (∃ c ∈ dbHalfMarkRes.rent_charges, c.id = 1 ∧ c.amount = 100000) ∧
    get_paid_amount_for_charge dbHalfMarkRes.allocations 1 "rent" = 150000 ∧
    ¬ chargeBound dbHalfMarkRes := by
  decide

/-- **C4** (amended): the per-charge bound `sum of allocations ≤ charge.amount
+ 0.01` is preserved by `allocate_payment` (given per-table unique charge
ids); `mark_charge_as_paid` preserves it only when the target charge carries
no prior allocation — it always allocates the full `charge.amount`, so on a
partially covered charge it breaks the bound. -/
theorem C4_no_overallocation
    (dbA : DB) (pidA : Nat) (dbA' : DB) (lA : List PaymentAllocation)
    (ownersB : List Nat) (nowB : Nat) (dbB : DB) (cidB : Nat) (ctB : String)
    (adminB : Nat) (nmB : String) (noteB : Option String) (dbB' : DB) (payB : Payment)
    (hndAr : (dbA.rent_charges.map (fun c => c.id)).Nodup)
    (hndAc : (dbA.comm_charges.map (fun c => c.id)).Nodup)
    (hA : allocate_payment dbA pidA = .ok (dbA', lA))
    (hbA : chargeBound dbA)
    (hndBr : (dbB.rent_charges.map (fun c => c.id)).Nodup)
    (hndBc : (dbB.comm_charges.map (fun c => c.id)).Nodup)
    (hB : mark_charge_as_paid ownersB nowB dbB cidB ctB adminB nmB noteB = .ok (dbB', payB))
    (hbB : chargeBound dbB)
    (hzeroB : get_paid_amount_for_charge dbB.allocations cidB ctB = 0) :
    chargeBound dbA' ∧ chargeBound dbB' :=
  ⟨chargeBound_allocate dbA pidA dbA' lA hndAr hndAc hA hbA,
   chargeBound_mark ownersB nowB dbB cidB ctB adminB nmB noteB dbB' payB
     hndBr hndBc hB hbB hzeroB⟩

/-- Witness for `C4_no_overallocation`: the P4 allocation run and a manual
mark of an uncovered charge. -/
theorem C4_no_overallocation_witness :
    chargeBound dbP4res ∧ chargeBound dbPristineMarkRes :=
  C4_no_overallocation dbP4 1 dbP4res dbP4allocs
    [] 0 dbPristine 1 "rent" 100 "Admin" none dbPristineMarkRes dbPristineMarkPay
    (by decide) (by decide) (by decide) (by decide)
    (by decide) (by decide) (by decide) (by decide) (by decide)


lemma paid_cons (x : PaymentAllocation) (l : List PaymentAllocation)
    (cid : Nat) (ct : String) :
    get_paid_amount_for_charge (x :: l) cid ct =
      get_paid_amount_for_charge [x] cid ct + get_paid_amount_for_charge l cid ct := by
  rw [show x :: l = [x] ++ l from rfl, paid_append]

/-- Removing one allocation row (by primary key, under key uniqueness)
lowers a charge's covered sum by exactly that row's contribution. -/
lemma paid_remove (l : List PaymentAllocation) (a : PaymentAllocation)
    (cid : Nat) (ct : String) :
    a ∈ l → (l.map (fun b => b.id)).Nodup →
    get_paid_amount_for_charge (l.filter (fun b => b.id != a.id)) cid ct
      = get_paid_amount_for_charge l cid ct - get_paid_amount_for_charge [a] cid ct := by
  induction l with
  | nil => intro ha _; cases ha
  | cons x rest ih =>
    intro ha hnd
    have hnd' : (rest.map (fun b => b.id)).Nodup := (List.nodup_cons.mp hnd).2
    rcases List.mem_cons.mp ha with hxa | har
    · have hkeep : rest.filter (fun b => b.id != a.id) = rest := by
        rw [List.filter_eq_self]
        intro b hb
        have hni : x.id ∉ rest.map (fun b => b.id) := (List.nodup_cons.mp hnd).1
        have hne : b.id ≠ a.id := by
          rw [hxa]
          exact fun he => hni (he ▸ List.mem_map_of_mem _ hb)
        simpa using hne
      have hfil : (x :: rest).filter (fun b => b.id != a.id) = rest := by
        rw [List.filter_cons_of_neg (by simp [hxa])]
        exact hkeep
      rw [hfil, paid_cons x rest cid ct, hxa]
      ring
    · have hxid : x.id ≠ a.id := by
        have hni : x.id ∉ rest.map (fun b => b.id) := (List.nodup_cons.mp hnd).1
        exact fun he => hni (he ▸ List.mem_map_of_mem _ har)
      have hfil : (x :: rest).filter (fun b => b.id != a.id)
          = x :: rest.filter (fun b => b.id != a.id) := by
        rw [List.filter_cons_of_pos (by simpa using hxid)]
      rw [hfil, paid_cons x (rest.filter (fun b => b.id != a.id)) cid ct,
        ih har hnd', paid_cons x rest cid ct]
      ring

lemma chargesOf_removeAllocation (db : DB) (aid : Nat) (ct : String) :
    chargesOf (removeAllocation db aid) ct = chargesOf db ct := by
  unfold chargesOf removeAllocation
  split <;> rfl

lemma removeAllocation_allocations (db : DB) (aid : Nat) :
    (removeAllocation db aid).allocations
      = db.allocations.filter (fun a => a.id != aid) := rfl

/-- Which rows `chargesOf` sees after a status write. -/
lemma chargesOf_set (db : DB) (ct' : String) (cid' : Nat) (s : ChargeStatus)
    (ct : String) :
    chargesOf (setChargeStatus db ct' cid' s) ct =
      if (ct == "rent") = (ct' == "rent")
      then (chargesOf db ct).map
        (fun c => if c.id == cid' then { c with status := s } else c)
      else chargesOf db ct := by
  unfold chargesOf setChargeStatus
  by_cases h1 : (ct == "rent") <;> by_cases h2 : (ct' == "rent") <;>
    simp [h1, h2]

lemma amount_hyp_set (db : DB) (ct' : String) (cid' : Nat) (s : ChargeStatus)
    (ct : String) (cid : Nat) (amt : Money)
    (h : ∀ c ∈ chargesOf db ct, c.id = cid → c.amount = amt) :
    ∀ c ∈ chargesOf (setChargeStatus db ct' cid' s) ct, c.id = cid → c.amount = amt := by
  rw [chargesOf_set]
  split
  · intro c hc hcid
    obtain ⟨c₀, hc₀, hce⟩ := List.mem_map.mp hc
    by_cases hid : c₀.id == cid'
    · rw [if_pos hid] at hce
      have hamt : c.amount = c₀.amount := by rw [← hce]
      have hcid₀ : c₀.id = cid := by rw [← hcid, ← hce]
      rw [hamt]
      exact h c₀ hc₀ hcid₀
    · rw [if_neg hid] at hce
      rw [← hce] at hcid ⊢
      exact h c₀ hc₀ hcid
  · exact h

lemma charge_ids_set (db : DB) (ct' : String) (cid' : Nat) (s : ChargeStatus)
    (ct : String) :
    (chargesOf (setChargeStatus db ct' cid' s) ct).map (fun c => c.id)
      = (chargesOf db ct).map (fun c => c.id) := by
  rw [chargesOf_set]
  split
  · rw [List.map_map]
    apply List.map_congr_left
    intro c _
    simp only [Function.comp]
    split <;> rfl
  · rfl

/-- Status writes issued with `pending` keep every already-pending group of
rows pending. -/
lemma pending_set (db : DB) (ct' : String) (cid' : Nat) (ct : String) (cid : Nat)
    (h : ∀ c ∈ chargesOf db ct, c.id = cid → c.status = ChargeStatus.pending) :
    ∀ c ∈ chargesOf (setChargeStatus db ct' cid' ChargeStatus.pending) ct,
      c.id = cid → c.status = ChargeStatus.pending := by
  rw [chargesOf_set]
  split
  · intro c hc hcid
    obtain ⟨c₀, hc₀, hce⟩ := List.mem_map.mp hc
    by_cases hid : c₀.id == cid'
    · rw [if_pos hid] at hce
      rw [← hce]
    · rw [if_neg hid] at hce
      rw [← hce] at hcid ⊢
      exact h c₀ hc₀ hcid
  · exact h

/-- Once every row of a charge id is pending, the deallocation loop keeps it
pending: it only ever writes `pending`. -/
lemma deallocLoop_pending_persists (ct : String) (cid : Nat) :
    ∀ (l : List PaymentAllocation) (db : DB),
      (∀ c ∈ chargesOf db ct, c.id = cid → c.status = ChargeStatus.pending) →
      ∀ c ∈ chargesOf (deallocLoop l db) ct, c.id = cid →
        c.status = ChargeStatus.pending := by
  intro l
  induction l with
  | nil => intro db h; exact h
  | cons x rest ih =>
    intro db h
    unfold deallocLoop
    apply ih
    rw [chargesOf_removeAllocation]
    split
    · exact h
    · dsimp only
      split
      · split
        · exact pending_set db x.charge_type x.charge_id ct cid h
        · exact h
      · exact h

lemma chargesOf_deallocLoop_ids (ct : String) :
    ∀ (l : List PaymentAllocation) (db : DB),
      (chargesOf (deallocLoop l db) ct).map (fun c => c.id)
        = (chargesOf db ct).map (fun c => c.id) := by
  intro l
  induction l with
  | nil => intro db; rfl
  | cons x rest ih =>
    intro db
    unfold deallocLoop
    rw [ih, chargesOf_removeAllocation]
    split
    · rfl
    · dsimp only
      split
      · split
        · exact charge_ids_set db x.charge_type x.charge_id ChargeStatus.pending ct
        · rfl
      · rfl


lemma paid_zero_of_no_target (l : List PaymentAllocation) (cid : Nat) (ct : String)
    (h : ∀ a ∈ l, ¬ (a.charge_type = ct ∧ a.charge_id = cid)) :
    get_paid_amount_for_charge l cid ct = 0 := by
  unfold get_paid_amount_for_charge
  have : l.filter (fun a => a.charge_id == cid && a.charge_type == ct) = [] := by
    rw [List.filter_eq_nil_iff]
    intro a ha
    have := h a ha
    simp only [Bool.and_eq_true, beq_iff_eq]
    tauto
  rw [this]
  rfl

/-- Core of C5: walking the deleted payment's allocations reverts a charge to
pending whenever the allocations of other payments no longer cover it. -/
lemma deallocLoop_reverts (pid : Nat) (ct : String) (cid : Nat) (amt otherPaid : Money) :
    ∀ (l : List PaymentAllocation) (db : DB),
      (∀ a ∈ l, a.payment_id = pid) →
      ((l.map (fun a => a.id)).Nodup) →
      ((db.allocations.map (fun a => a.id)).Nodup) →
      (∀ a ∈ l, a ∈ db.allocations) →
      ((chargesOf db ct).map (fun c => c.id)).Nodup →
      (∃ a ∈ l, a.charge_type = ct ∧ a.charge_id = cid) →
      get_paid_amount_for_charge db.allocations cid ct
        = otherPaid + get_paid_amount_for_charge l cid ct →
      otherPaid < amt - eps →
      (∀ c ∈ chargesOf db ct, c.id = cid → c.amount = amt) →
      ∀ c ∈ chargesOf (deallocLoop l db) ct, c.id = cid →
        c.status = ChargeStatus.pending := by
  intro l
  induction l with
  | nil =>
    intro db _ _ _ _ _ hex _ _
    obtain ⟨a, ha, -⟩ := hex
    cases ha
  | cons x rest ih =>
    intro db hpid hlnd hdnd hsub htnd hex hsum hlt hamt
    have hxdb : x ∈ db.allocations := hsub x (List.mem_cons_self _ _)
    have hlnd2 : (x.id :: rest.map (fun a => a.id)).Nodup := by simpa using hlnd
    have hxid_notin : x.id ∉ rest.map (fun a => a.id) := (List.nodup_cons.mp hlnd2).1
    have hlnd' : (rest.map (fun a => a.id)).Nodup := (List.nodup_cons.mp hlnd2).2
    have hpaidx : get_paid_amount_for_charge (x :: rest) cid ct
        = get_paid_amount_for_charge [x] cid ct
          + get_paid_amount_for_charge rest cid ct := paid_cons x rest cid ct
    -- uniform recursion step over any status-only variant db1 of db
    have hrec : ∀ db1 : DB,
        db1.allocations = db.allocations →
        (chargesOf db1 ct).map (fun c => c.id) = (chargesOf db ct).map (fun c => c.id) →
        (∀ c ∈ chargesOf db1 ct, c.id = cid → c.amount = amt) →
        (∃ a ∈ rest, a.charge_type = ct ∧ a.charge_id = cid) →
        ∀ c ∈ chargesOf (deallocLoop rest (removeAllocation db1 x.id)) ct,
          c.id = cid → c.status = ChargeStatus.pending := by
      intro db1 ha1 hi1 ham1 hex'
      have hd2a : (removeAllocation db1 x.id).allocations
          = db.allocations.filter (fun a => a.id != x.id) := by
        rw [removeAllocation_allocations, ha1]
      apply ih (removeAllocation db1 x.id)
        (fun a ha => hpid a (List.mem_cons_of_mem _ ha)) hlnd'
      · rw [hd2a]
        exact hdnd.sublist ((List.filter_sublist _).map _)
      · intro a ha
        rw [hd2a]
        refine List.mem_filter.mpr ⟨hsub a (List.mem_cons_of_mem _ ha), ?_⟩
        have : a.id ≠ x.id :=
          fun he => hxid_notin (he ▸ List.mem_map_of_mem _ ha)
        simpa using this
      · rw [chargesOf_removeAllocation, hi1]
        exact htnd
      · exact hex'
      · rw [hd2a, paid_remove db.allocations x cid ct hxdb hdnd, hsum, hpaidx]
        ring
      · exact hlt
      · intro c hc
        rw [chargesOf_removeAllocation] at hc
        exact ham1 c hc
    by_cases hx : x.charge_type = ct ∧ x.charge_id = cid
    · by_cases hrest : ∃ a ∈ rest, a.charge_type = ct ∧ a.charge_id = cid
      · -- not the last allocation to this charge: just recurse
        unfold deallocLoop
        split
        · exact hrec db rfl rfl hamt hrest
        · dsimp only
          split
          · split
            · rename_i charge hfc hpaid hcond
              apply hrec (setChargeStatus db x.charge_type x.charge_id ChargeStatus.pending)
                (setChargeStatus_allocations db _ _ _) (charge_ids_set db _ _ _ ct)
                (amount_hyp_set db _ _ _ ct cid amt hamt) hrest
            · exact hrec db rfl rfl hamt hrest
          · exact hrec db rfl rfl hamt hrest
      · -- last allocation to this charge
        have hsum0 : get_paid_amount_for_charge rest cid ct = 0 := by
          apply paid_zero_of_no_target
          intro a ha hta
          exact hrest ⟨a, ha, hta⟩
        have hpaid1 : get_paid_amount_for_charge [x] cid ct = x.amount := by
          rw [paid_single]
          have : (x.charge_id == cid && x.charge_type == ct) = true := by
            simp [hx.1, hx.2]
          rw [if_pos this]
        have hsum' : get_paid_amount_for_charge db.allocations cid ct
            = otherPaid + x.amount := by
          rw [hsum, hpaidx, hsum0, hpaid1]
          ring
        unfold deallocLoop
        cases hfc : findCharge db x.charge_type x.charge_id with
        | none =>
          dsimp only
          -- no row with this id exists at all: conclusion is vacuous
          intro c hc hcid
          exfalso
          have hids : (chargesOf (deallocLoop rest (removeAllocation db x.id)) ct).map
              (fun c => c.id) = (chargesOf db ct).map (fun c => c.id) := by
            rw [chargesOf_deallocLoop_ids, chargesOf_removeAllocation]
          have : cid ∈ (chargesOf db ct).map (fun c => c.id) := by
            rw [← hids]
            exact hcid ▸ List.mem_map_of_mem _ hc
          obtain ⟨c₀, hc₀, hc₀id⟩ := List.mem_map.mp this
          have hfc' : findCharge db ct cid = none := by
            unfold findCharge at hfc ⊢
            rw [← hx.1, ← hx.2]
            exact hfc
          have := List.find?_eq_none.mp hfc' c₀ hc₀
          simp [hc₀id] at this
        | some charge =>
          dsimp only
          have hfc' : findCharge db ct cid = some charge := by
            unfold findCharge at hfc ⊢
            rw [← hx.1, ← hx.2]
            exact hfc
          obtain ⟨hchm, hchid⟩ := findCharge_mem db ct cid charge hfc'
          have hcamt : charge.amount = amt := hamt charge hchm hchid
          by_cases hst : charge.status = ChargeStatus.paid
          · rw [if_pos hst]
            have hcond : get_paid_amount_for_charge db.allocations x.charge_id
                x.charge_type - x.amount < charge.amount - eps := by
              rw [hx.1, hx.2, hsum', hcamt]
              linarith
            rw [if_pos hcond]
            -- the write puts every row of this id at pending, and it persists
            have hpend : ∀ c ∈ chargesOf
                (setChargeStatus db x.charge_type x.charge_id ChargeStatus.pending) ct,
                c.id = cid → c.status = ChargeStatus.pending := by
              rw [chargesOf_set]
              rw [hx.1]
              rw [if_pos rfl]
              intro c hc hcid
              obtain ⟨c₀, hc₀, hce⟩ := List.mem_map.mp hc
              by_cases hid : c₀.id == x.charge_id
              · rw [if_pos hid] at hce
                rw [← hce]
              · rw [if_neg hid] at hce
                exfalso
                apply hid
                rw [hce, hcid, hx.2]
                exact beq_self_eq_true cid
            apply deallocLoop_pending_persists ct cid
            intro c hc hcid
            rw [chargesOf_removeAllocation] at hc
            exact hpend c hc hcid
          · rw [if_neg hst]
            -- the unique row with this id is already pending
            have hpend : ∀ c ∈ chargesOf db ct, c.id = cid →
                c.status = ChargeStatus.pending := by
              intro c hc hcid
              have hcc : c = charge :=
                List.inj_on_of_nodup_map htnd hc hchm (by rw [hcid, hchid])
              rw [hcc]
              cases hcs : charge.status with
              | pending => rfl
              | paid => exact absurd hcs hst
            apply deallocLoop_pending_persists ct cid
            intro c hc hcid
            rw [chargesOf_removeAllocation] at hc
            exact hpend c hc hcid
    · -- head does not touch the charge: recurse
      have hrest : ∃ a ∈ rest, a.charge_type = ct ∧ a.charge_id = cid := by
        obtain ⟨a, ha, hta⟩ := hex
        rcases List.mem_cons.mp ha with rfl | har
        · exact absurd hta hx
        · exact ⟨a, har, hta⟩
      unfold deallocLoop
      split
      · exact hrec db rfl rfl hamt hrest
      · dsimp only
        split
        · split
          · apply hrec (setChargeStatus db x.charge_type x.charge_id ChargeStatus.pending)
              (setChargeStatus_allocations db _ _ _) (charge_ids_set db _ _ _ ct)
              (amount_hyp_set db _ _ _ ct cid amt hamt) hrest
          · exact hrec db rfl rfl hamt hrest
        · exact hrec db rfl rfl hamt hrest


lemma paid_partition (l : List PaymentAllocation) (cid : Nat) (ct : String)
    (q : PaymentAllocation → Bool) :
    get_paid_amount_for_charge l cid ct =
      get_paid_amount_for_charge (l.filter q) cid ct +
      get_paid_amount_for_charge (l.filter (fun a => !(q a))) cid ct := by
  induction l with
  | nil => simp [get_paid_amount_for_charge]
  | cons x rest ih =>
    cases hq : q x
    · rw [List.filter_cons_of_neg (by simp [hq]),
        List.filter_cons_of_pos (p := fun a => !(q a)) (by simp [hq]),
        paid_cons x rest, ih, paid_cons x (rest.filter (fun a => !(q a)))]
      ring
    · rw [List.filter_cons_of_pos (by simp [hq]),
        List.filter_cons_of_neg (p := fun a => !(q a)) (by simp [hq]),
        paid_cons x rest, ih, paid_cons x (rest.filter q)]
      ring

lemma deallocLoop_allocations (l : List PaymentAllocation) :
    ∀ db : DB, (deallocLoop l db).allocations
      = db.allocations.filter (fun a => l.all (fun b => a.id != b.id)) := by
  induction l with
  | nil =>
    intro db
    show db.allocations = _
    rw [List.filter_eq_self.mpr]
    intro a _
    simp
  | cons x rest ih =>
    intro db
    unfold deallocLoop
    rw [ih]
    have hdb1 : ∀ db1 : DB, db1.allocations = db.allocations →
        (removeAllocation db1 x.id).allocations.filter
            (fun a => rest.all (fun b => a.id != b.id))
          = db.allocations.filter (fun a => (x :: rest).all (fun b => a.id != b.id)) := by
      intro db1 h1
      rw [removeAllocation_allocations, h1, List.filter_filter]
      apply List.filter_congr
      intro a _
      simp only [List.all_cons]
      rw [Bool.and_comm]
    split
    · exact hdb1 db rfl
    · dsimp only
      split
      · split
        · exact hdb1 _ (setChargeStatus_allocations db _ _ _)
        · exact hdb1 db rfl
      · exact hdb1 db rfl

lemma deallocate_allocations (db : DB) (pid : Nat)
    (hnd : (db.allocations.map (fun a => a.id)).Nodup) :
    (deallocate_payment db pid).allocations
      = db.allocations.filter (fun a => a.payment_id != pid) := by
  have h0 : (deallocate_payment db pid).allocations
      = (deallocLoop (get_payment_allocations db pid) db).allocations := by
    unfold deallocate_payment
    dsimp only
    split
    · rfl
    · rfl
  rw [h0, deallocLoop_allocations]
  apply List.filter_congr
  intro a ha
  by_cases hp : a.payment_id = pid
  · have hal : a ∈ get_payment_allocations db pid :=
      List.mem_filter.mpr ⟨ha, by simpa using hp⟩
    have hfalse : (get_payment_allocations db pid).all (fun b => a.id != b.id) = false := by
      rw [Bool.eq_false_iff]
      intro hall
      rw [List.all_eq_true] at hall
      have := hall a hal
      simp at this
    rw [hfalse, hp]
    simp
  · have htrue : (get_payment_allocations db pid).all (fun b => a.id != b.id) = true := by
      rw [List.all_eq_true]
      intro b hb
      obtain ⟨hbm, hbp⟩ := List.mem_filter.mp hb
      have hbp' : b.payment_id = pid := by simpa using hbp
      have hne : a ≠ b := fun he => hp (he ▸ hbp')
      have : a.id ≠ b.id := fun he =>
        hne (List.inj_on_of_nodup_map hnd ha hbm he)
      simpa using this
    rw [htrue]
    simp [hp]

lemma findPayment_update_of_some (db : DB) (pid : Nat) (f : Payment → Payment)
    (hf : ∀ p, (f p).id = p.id) (P : Payment)
    (hfp : findPayment db pid = some P) :
    findPayment (updatePayment db pid f) pid = some (f P) := by
  rw [findPayment_updatePayment db pid f hf, hfp]
  show some (if P.id == pid then f P else P) = some (f P)
  rw [if_pos (by simpa using (findPayment_mem db pid P hfp).2)]

lemma deallocate_eq_update (db : DB) (pid : Nat) (P : Payment)
    (hfp : findPayment db pid = some P) :
    deallocate_payment db pid
      = updatePayment (deallocLoop (get_payment_allocations db pid) db) pid
          (fun p => { p with allocated_amount := 0, unallocated_amount := totalOf p }) := by
  unfold deallocate_payment
  dsimp only
  rw [show findPayment (deallocLoop (get_payment_allocations db pid) db) pid = some P by
    rw [findPayment_congr _ db pid (deallocLoop_payments _ db)]
    exact hfp]

lemma deallocate_find (db : DB) (pid : Nat) (P : Payment)
    (hfp : findPayment db pid = some P) :
    findPayment (deallocate_payment db pid) pid
      = some { P with allocated_amount := 0, unallocated_amount := totalOf P } := by
  rw [deallocate_eq_update db pid P hfp]
  apply findPayment_update_of_some
  · intro p; rfl
  · rw [findPayment_congr _ db pid (deallocLoop_payments _ db)]
    exact hfp

lemma deallocate_charges (db : DB) (pid : Nat) (ct : String) :
    chargesOf (deallocate_payment db pid) ct
      = chargesOf (deallocLoop (get_payment_allocations db pid) db) ct := by
  unfold deallocate_payment
  dsimp only
  split
  · rfl
  · unfold chargesOf updatePayment
    split <;> rfl


/-- **C5**: deallocation correctness.  `deallocate_payment` deletes exactly
the payment's allocations; resets the payment to `allocated_amount = 0`,
`unallocated_amount = total_amount`; and every charge the payment had touched
whose remaining coverage from other payments no longer reaches its amount
(within 0.01) ends with status pending. -/
theorem C5_deallocate (db : DB) (pid : Nat) (P : Payment) (ct : String)
    (cid : Nat) (amt : Money)
    (hfp : findPayment db pid = some P)
    (hnd : (db.allocations.map (fun a => a.id)).Nodup)
    (htnd : ((chargesOf db ct).map (fun c => c.id)).Nodup)
    (hex : ∃ a ∈ db.allocations,
        a.payment_id = pid ∧ a.charge_type = ct ∧ a.charge_id = cid)
    (hamt : ∀ c ∈ chargesOf db ct, c.id = cid → c.amount = amt)
    (hother : get_paid_amount_for_charge
        (db.allocations.filter (fun a => a.payment_id != pid)) cid ct < amt - eps) :
    (deallocate_payment db pid).allocations
      = db.allocations.filter (fun a => a.payment_id != pid) ∧
    findPayment (deallocate_payment db pid) pid
      = some { P with allocated_amount := 0, unallocated_amount := totalOf P } ∧
    ∀ c ∈ chargesOf (deallocate_payment db pid) ct, c.id = cid →
      c.status = ChargeStatus.pending := by
  refine ⟨deallocate_allocations db pid hnd, deallocate_find db pid P hfp, ?_⟩
  have hcg := deallocate_charges db pid ct
  rw [hcg]
  set l := get_payment_allocations db pid with hl
  apply deallocLoop_reverts pid ct cid amt
    (get_paid_amount_for_charge
      (db.allocations.filter (fun a => a.payment_id != pid)) cid ct) l db
  · intro a ha
    simpa using (List.mem_filter.mp ha).2
  · exact hnd.sublist ((List.filter_sublist _).map _)
  · exact hnd
  · intro a ha
    exact (List.mem_filter.mp ha).1
  · exact htnd
  · obtain ⟨a, ha, hap, hat, hac⟩ := hex
    exact ⟨a, List.mem_filter.mpr ⟨ha, by simpa using hap⟩, hat, hac⟩
  · have hpart := paid_partition db.allocations cid ct
      (fun a => a.payment_id != pid)
    have hfilter : db.allocations.filter (fun a => !(a.payment_id != pid)) = l := by
      rw [hl]
      unfold get_payment_allocations
      apply List.filter_congr
      intro a _
      simp [bne]
    rw [hfilter] at hpart
    exact hpart
  · exact hother
  · exact hamt

/-- The P4 payment row after allocation. -/
def dbP4resPayment : Payment :=
  { scenarioPayment1500 with allocated_amount := 150000, unallocated_amount := 0 }

/-- Witness for `C5_deallocate`: deallocating the P4 allocation run. -/
theorem C5_deallocate_witness :
    (deallocate_payment dbP4res 1).allocations
      = dbP4res.allocations.filter (fun a => a.payment_id != 1) ∧
    findPayment (deallocate_payment dbP4res 1) 1
      = some { dbP4resPayment with
          allocated_amount := 0, unallocated_amount := totalOf dbP4resPayment } ∧
    ∀ c ∈ chargesOf (deallocate_payment dbP4res 1) "rent", c.id = 1 →
      c.status = ChargeStatus.pending :=
  C5_deallocate dbP4res 1 dbP4resPayment "rent" 1 100000
    (by decide) (by decide) (by decide) (by decide) (by decide) (by decide)


/-- Cancelling an already-cancelled payment is a successful no-op for any
actor: the check precedes authorization and any state write. -/
lemma cancel_idem (owners : List Nat) (now : Nat) (db : DB) (pid admin : Nat)
    (reason : String) (P : Payment)
    (hfp : findPayment db pid = some P) (hc : P.status = "cancelled") :
    cancel_payment owners now db pid admin reason = .ok (db, true) := by
  unfold cancel_payment
  rw [hfp]
  dsimp only
  rw [if_pos hc]

/-- Cancelling from any status outside pending_manual / pending / cancelled
raises InvalidState before any state write. -/
lemma cancel_invalid (owners : List Nat) (now : Nat) (db : DB) (pid admin : Nat)
    (reason : String) (P : Payment)
    (hfp : findPayment db pid = some P) (hc : P.status ≠ "cancelled")
    (h1 : P.status ≠ "pending_manual") (h2 : P.status ≠ "pending") :
    cancel_payment owners now db pid admin reason = .error .invalidState := by
  unfold cancel_payment
  rw [hfp]
  dsimp only
  rw [if_neg hc, if_pos ⟨h1, h2⟩]

lemma cancel_succeeds (owners : List Nat) (now : Nat) (db : DB) (pid admin : Nat)
    (reason : String) (P : Payment)
    (hfp : findPayment db pid = some P)
    (hok : P.status = "pending_manual" ∨ P.status = "pending")
    (hauth : (decide (admin ∈ owners) ||
        (match findStay db P.stay_id with
         | none => false
         | some stay =>
           match findObject db stay.object_id with
           | none => false
           | some obj => obj.owner_id == admin)) = true) :
    ∃ db', cancel_payment owners now db pid admin reason = .ok (db', true) := by
  have hnc : P.status ≠ "cancelled" := by
    rcases hok with h | h <;> rw [h] <;> decide
  have hcond : ¬ (P.status ≠ "pending_manual" ∧ P.status ≠ "pending") := by
    rcases hok with h | h
    · exact fun hc => hc.1 h
    · exact fun hc => hc.2 h
  unfold cancel_payment
  rw [hfp]
  dsimp only
  rw [if_neg hnc, if_neg hcond, if_neg (not_not_intro hauth)]
  exact ⟨_, rfl⟩

/-- The payment table after a non-idempotent successful cancel. -/
lemma cancel_payments_of_ok (owners : List Nat) (now : Nat) (db : DB)
    (pid admin : Nat) (reason : String) (db' : DB) (flag : Bool) (P : Payment)
    (h : cancel_payment owners now db pid admin reason = .ok (db', flag))
    (hfp : findPayment db pid = some P) (hnc : P.status ≠ "cancelled") :
    db'.payments = db.payments.map
      (fun p => if p.id == pid then cancelUpdate admin now reason p else p) := by
  obtain ⟨-, hcase⟩ := cancel_ok_inv owners now db pid admin reason db' flag h
  rcases hcase with ⟨-, P', hfp', hc'⟩ | hpays
  · rw [hfp] at hfp'
    cases hfp'
    exact absurd hc' hnc
  · exact hpays

lemma findPayment_cancel_ok (owners : List Nat) (now : Nat) (db : DB)
    (pid admin : Nat) (reason : String) (db' : DB) (flag : Bool) (P : Payment)
    (h : cancel_payment owners now db pid admin reason = .ok (db', flag))
    (hfp : findPayment db pid = some P) (hnc : P.status ≠ "cancelled") :
    findPayment db' pid = some (cancelUpdate admin now reason P) := by
  have hpays := cancel_payments_of_ok owners now db pid admin reason db' flag P h hfp hnc
  have : findPayment db' pid
      = findPayment (updatePayment db pid (cancelUpdate admin now reason)) pid := by
    apply findPayment_congr
    rw [hpays]
    rfl
  rw [this]
  exact findPayment_update_of_some db pid (cancelUpdate admin now reason)
    (cancelUpdate_id admin now reason) P hfp

/-- A successful cancel is followed by another successful cancel: the second
call hits the idempotency branch. -/
lemma cancel_twice (owners : List Nat) (now : Nat) (db : DB) (pid admin : Nat)
    (reason : String) (db' : DB) (flag : Bool)
    (owners2 : List Nat) (now2 admin2 : Nat) (reason2 : String)
    (h : cancel_payment owners now db pid admin reason = .ok (db', flag)) :
    cancel_payment owners2 now2 db' pid admin2 reason2 = .ok (db', true) := by
  cases hfp : findPayment db pid with
  | none => unfold cancel_payment at h; rw [hfp] at h; cases h
  | some P =>
    by_cases hnc : P.status = "cancelled"
    · obtain ⟨-, hcase⟩ := cancel_ok_inv owners now db pid admin reason db' flag h
      rcases hcase with ⟨hdb, -⟩ | hpays
      · rw [hdb]
        exact cancel_idem owners2 now2 db pid admin2 reason2 P hfp hnc
      · have hfp' := findPayment_cancel_ok owners now db pid admin reason db' flag P h hfp
        -- hnc says cancelled, so the payments-map case needs no contradiction:
        -- the mapped row is cancelled as well
        exact cancel_idem owners2 now2 db' pid admin2 reason2
          (cancelUpdate admin now reason P) (by
            have hpays := hpays
            have : findPayment db' pid
                = findPayment (updatePayment db pid (cancelUpdate admin now reason)) pid := by
              apply findPayment_congr
              rw [hpays]
              rfl
            rw [this]
            exact findPayment_update_of_some db pid (cancelUpdate admin now reason)
              (cancelUpdate_id admin now reason) P hfp)
          (cancelUpdate_status admin now reason P)
    · have hfp' := findPayment_cancel_ok owners now db pid admin reason db' flag P h hfp hnc
      exact cancel_idem owners2 now2 db' pid admin2 reason2
        (cancelUpdate admin now reason P) hfp'
        (cancelUpdate_status admin now reason P)


/-- A database holding an already-cancelled payment. -/
def dbCancelled : DB :=
  { dbPending with payments := [{ pendingPayment100 with status := "cancelled" }] }


/-- Scenario B of the spec, in hundredths: rent charges Jan/Feb of 30000.00,
a confirmed payment of 45000.00 fully allocated (Jan covered in full, Feb
covered 15000.00). -/
def paymentScenB : Payment :=
  { id := 1, stay_id := 1, type := "rent", amount := 4500000,
    total_amount := some 4500000, allocated_amount := 4500000,
    unallocated_amount := 0, method := "online", status := "confirmed",
    source := "photo", is_manual := false, marked_by := none,
    confirmed_at := some 0, meta_json := none }

def dbScenB : DB :=
  { payments := [paymentScenB],
    rent_charges :=
      [{ id := 1, stay_id := 1, month := 1, amount := 3000000, status := .paid },
       { id := 2, stay_id := 1, month := 2, amount := 3000000, status := .pending }],
    comm_charges := [],
    allocations :=
      [{ id := 1, payment_id := 1, charge_id := 1, charge_type := "rent", amount := 3000000 },
       { id := 2, payment_id := 1, charge_id := 2, charge_type := "rent", amount := 1500000 }],
    stays := [{ id := 1, object_id := 1 }],
    objects := [{ id := 1, owner_id := 100 }],
    next_payment_id := 2, next_allocation_id := 3 }

/-- The same state with the payment still pending (not yet confirmed). -/
def paymentScenBpending : Payment := { paymentScenB with status := "pending" }

def dbScenBpending : DB := { dbScenB with payments := [paymentScenBpending] }

def dbScenCres : DB :=
  match cancel_payment [100] 5 dbScenBpending 1 100 "r" with
  | .ok (d, _) => d
  | .error _ => dbScenBpending

def scenBbal : StayBalance :=
  match get_stay_balance dbScenB 1 10 with
  | .ok b => b
  | .error _ => { stay_id := 0, total_charged := 0, total_paid := 0, balance := 0,
                  rent_charged := 0, comm_charged := 0, rent_paid := 0, comm_paid := 0,
                  unpaid_charges := [], advances := 0 }

def scenBpendingBal : StayBalance :=
  match get_stay_balance dbScenBpending 1 10 with
  | .ok b => b
  | .error _ => scenBbal

def scenCbal : StayBalance :=
  match get_stay_balance dbScenCres 1 10 with
  | .ok b => b
  | .error _ => scenBbal

/-- **C6**: cancellation error discipline.  Cancelling an already-cancelled
payment returns success with the state untouched (so two consecutive calls
both succeed); cancelling from any status outside pending_manual / pending /
cancelled raises InvalidState, and the error aborts the transaction before
any write. -/
theorem C6_cancel_errors
    (ownersI : List Nat) (nowI : Nat) (dbI : DB) (pidI adminI : Nat)
    (reasonI : String) (PI : Payment)
    (ownersE : List Nat) (nowE : Nat) (dbE : DB) (pidE adminE : Nat)
    (reasonE : String) (PE : Payment)
    (ownersT : List Nat) (nowT : Nat) (dbT : DB) (pidT adminT : Nat)
    (reasonT : String) (dbT' : DB) (flagT : Bool)
    (hI1 : findPayment dbI pidI = some PI) (hI2 : PI.status = "cancelled")
    (hE1 : findPayment dbE pidE = some PE) (hE2 : PE.status ≠ "cancelled")
    (hE3 : PE.status ≠ "pending_manual") (hE4 : PE.status ≠ "pending")
    (hT : cancel_payment ownersT nowT dbT pidT adminT reasonT = .ok (dbT', flagT)) :
    cancel_payment ownersI nowI dbI pidI adminI reasonI = .ok (dbI, true) ∧
    cancel_payment ownersE nowE dbE pidE adminE reasonE = .error .invalidState ∧
    cancel_payment ownersT nowT dbT' pidT adminT reasonT = .ok (dbT', true) :=
  ⟨cancel_idem ownersI nowI dbI pidI adminI reasonI PI hI1 hI2,
   cancel_invalid ownersE nowE dbE pidE adminE reasonE PE hE1 hE2 hE3 hE4,
   cancel_twice ownersT nowT dbT pidT adminT reasonT dbT' flagT
     ownersT nowT adminT reasonT hT⟩

/-- Witness for `C6_cancel_errors`: a cancelled copy of the pending payment,
the confirmed Scenario-B payment, and a pending payment cancelled twice. -/
theorem C6_cancel_errors_witness :
    cancel_payment [5] 0 dbCancelled 1 5 "err" = .ok (dbCancelled, true) ∧
    cancel_payment [100] 5 dbScenB 1 100 "r" = .error .invalidState ∧
    cancel_payment [5] 0 dbPendingCancelRes 1 5 "err" = .ok (dbPendingCancelRes, true) :=
  C6_cancel_errors [5] 0 dbCancelled 1 5 "err"
    { pendingPayment100 with status := "cancelled" }
    [100] 5 dbScenB 1 100 "r" paymentScenB
    [5] 0 dbPending 1 5 "err" dbPendingCancelRes true
    (by decide) (by decide) (by decide) (by decide) (by decide) (by decide)
    (by decide)


/-- **C9** counterexample: in the state of Scenario B the balance of 15000.00
debt requires the 45000.00 payment to be `confirmed` (only confirmed payments
count in the balance), and `cancel_payment` on a confirmed payment raises
InvalidState instead of succeeding, leaving the balance at 15000.00 debt. -/
theorem C9_counterexample :
    get_stay_balance dbScenB 1 10 = .ok scenBbal ∧
    scenBbal.balance = 1500000 ∧
    cancel_payment [100] 5 dbScenB 1 100 "r" = .error .invalidState := by
  decide

/-- **C9** (amended): from Scenario B with the payment confirmed (which the
balance of 15000.00 debt requires), `cancel_payment` raises InvalidState and
the balance stays 15000.00 debt.  The claimed outcome — cancel succeeds, both
charges revert to pending, balance 60000.00 debt — happens only if the
payment's status is pending, in which case the balance before the cancel is
already 60000.00 debt rather than 15000.00. -/
theorem C9_scenarioC :
    (get_stay_balance dbScenB 1 10 = .ok scenBbal ∧
     scenBbal.balance = 1500000 ∧
     cancel_payment [100] 5 dbScenB 1 100 "r" = .error .invalidState) ∧
    (get_stay_balance dbScenBpending 1 10 = .ok scenBpendingBal ∧
     scenBpendingBal.balance = 6000000 ∧
     cancel_payment [100] 5 dbScenBpending 1 100 "r" = .ok (dbScenCres, true) ∧
     dbScenCres.rent_charges.map (fun c => c.status)
       = [ChargeStatus.pending, ChargeStatus.pending] ∧
     dbScenCres.allocations = [] ∧
     get_stay_balance dbScenCres 1 10 = .ok scenCbal ∧
     scenCbal.balance = 6000000) := by
  decide


/-- **C10**: audit metadata of a non-idempotent successful cancel.  The
cancelled payment's `meta_json` records `cancelled_by` = acting admin,
`cancelled_at` = cancellation time, `cancel_reason` = the given reason, and
`original_status` = the string "cancelled" — not the pre-cancel status —
because line 487 overwrites `payment.status` before line 498 reads it. -/
theorem C10_cancel_metadata (owners : List Nat) (now : Nat) (db : DB)
    (pid admin : Nat) (reason : String) (P : Payment)
    (hfp : findPayment db pid = some P)
    (hst : P.status = "pending_manual" ∨ P.status = "pending")
    (hauth : (decide (admin ∈ owners) ||
        (match findStay db P.stay_id with
         | none => false
         | some stay =>
           match findObject db stay.object_id with
           | none => false
           | some obj => obj.owner_id == admin)) = true) :
    ∃ db', cancel_payment owners now db pid admin reason = .ok (db', true) ∧
      findPayment db' pid = some (cancelUpdate admin now reason P) ∧
      (cancelUpdate admin now reason P).status = "cancelled" ∧
      ∃ m, (cancelUpdate admin now reason P).meta_json = some m ∧
        m.cancelled_by = some admin ∧ m.cancelled_at = some now ∧
        m.cancel_reason = some reason ∧ m.original_status = some "cancelled" := by
  obtain ⟨db', hok⟩ := cancel_succeeds owners now db pid admin reason P hfp hst hauth
  have hnc : P.status ≠ "cancelled" := by
    rcases hst with h | h <;> rw [h] <;> decide
  refine ⟨db', hok, findPayment_cancel_ok owners now db pid admin reason db' true P
    hok hfp hnc, rfl, ?_⟩
  exact ⟨_, rfl, rfl, rfl, rfl, rfl⟩

/-- Witness for `C10_cancel_metadata`: cancelling the pending 100.00 payment. -/
theorem C10_cancel_metadata_witness :
    ∃ db', cancel_payment [5] 0 dbPending 1 5 "err" = .ok (db', true) ∧
      findPayment db' 1 = some (cancelUpdate 5 0 "err" pendingPayment100) ∧
      (cancelUpdate 5 0 "err" pendingPayment100).status = "cancelled" ∧
      ∃ m, (cancelUpdate 5 0 "err" pendingPayment100).meta_json = some m ∧
        m.cancelled_by = some 5 ∧ m.cancelled_at = some 0 ∧
        m.cancel_reason = some "err" ∧ m.original_status = some "cancelled" :=
  C10_cancel_metadata [5] 0 dbPending 1 5 "err" pendingPayment100
    (by decide) (by decide) (by decide)


lemma setChargeStatus_all_target (db : DB) (ct : String) (cid : Nat) (s : ChargeStatus) :
    ∀ c ∈ chargesOf (setChargeStatus db ct cid s) ct, c.id = cid → c.status = s := by
  rw [chargesOf_set, if_pos rfl]
  intro c hc hcid
  obtain ⟨c₀, hc₀, hce⟩ := List.mem_map.mp hc
  by_cases hid : c₀.id == cid
  · rw [if_pos hid] at hce
    rw [← hce]
  · rw [if_neg hid] at hce
    exfalso
    apply hid
    rw [hce]
    simpa using hcid

/-- **C8**: manual marking.  On a pending charge, an actor who is a global
owner or the owning object's admin gets a confirmed manual payment covering
exactly the charge with exactly one allocation, and the charge ends paid; on
an already-paid charge the call raises AlreadyPaid (aborting before any
write). -/
theorem C8_manual_mark
    (ownersS : List Nat) (nowS : Nat) (dbS : DB) (cidS : Nat) (ctS : String)
    (adminS : Nat) (nmS : String) (noteS : Option String)
    (charge : Charge) (stay : TenantStay) (obj : RentalObject)
    (ownersF : List Nat) (nowF : Nat) (dbF : DB) (cidF : Nat) (ctF : String)
    (adminF : Nat) (nmF : String) (noteF : Option String) (chargeF : Charge)
    (hct : ctS = "rent" ∨ ctS = "comm")
    (hfc : findCharge dbS ctS cidS = some charge)
    (hpend : charge.status = ChargeStatus.pending)
    (hstay : findStay dbS charge.stay_id = some stay)
    (hobj : findObject dbS stay.object_id = some obj)
    (hauth : adminS ∈ ownersS ∨ obj.owner_id = adminS)
    (hctF : ctF = "rent" ∨ ctF = "comm")
    (hfcF : findCharge dbF ctF cidF = some chargeF)
    (hpaidF : chargeF.status = ChargeStatus.paid) :
    (∃ db' pay,
      mark_charge_as_paid ownersS nowS dbS cidS ctS adminS nmS noteS = .ok (db', pay) ∧
      pay.is_manual = true ∧
      pay.total_amount = some charge.amount ∧
      pay.amount = charge.amount ∧
      pay.allocated_amount = charge.amount ∧
      pay.unallocated_amount = 0 ∧
      pay.status = "confirmed" ∧
      pay.marked_by = some adminS ∧
      db'.payments = dbS.payments ++ [pay] ∧
      db'.allocations = dbS.allocations ++
        [{ id := dbS.next_allocation_id, payment_id := pay.id,
           charge_id := cidS, charge_type := ctS, amount := charge.amount }] ∧
      (∀ c ∈ chargesOf db' ctS, c.id = cidS → c.status = ChargeStatus.paid)) ∧
    mark_charge_as_paid ownersF nowF dbF cidF ctF adminF nmF noteF
      = .error .alreadyPaid := by
  constructor
  · have hs : charge.status ≠ ChargeStatus.paid := by rw [hpend]; decide
    rw [mark_run ownersS nowS dbS cidS ctS adminS nmS noteS charge stay obj
      hct hfc hs hstay hobj hauth]
    refine ⟨_, _, rfl, rfl, rfl, rfl, rfl, rfl, rfl, rfl, ?_, ?_, ?_⟩
    · rw [setChargeStatus_payments]
    · rw [setChargeStatus_allocations]
      rfl
    · exact setChargeStatus_all_target _ ctS cidS ChargeStatus.paid
  · exact mark_already_paid ownersF nowF dbF cidF ctF adminF nmF noteF chargeF
      hctF hfcF hpaidF

/-- Witness for `C8_manual_mark`: marking the uncovered pending 1000.00
charge and re-marking Scenario B's already-paid January charge. -/
theorem C8_manual_mark_witness :
    (∃ db' pay,
      mark_charge_as_paid [] 0 dbPristine 1 "rent" 100 "Admin" none = .ok (db', pay) ∧
      pay.is_manual = true ∧
      pay.total_amount = some (100000 : Money) ∧
      pay.amount = (100000 : Money) ∧
      pay.allocated_amount = (100000 : Money) ∧
      pay.unallocated_amount = 0 ∧
      pay.status = "confirmed" ∧
      pay.marked_by = some 100 ∧
      db'.payments = dbPristine.payments ++ [pay] ∧
      db'.allocations = dbPristine.allocations ++
        [{ id := dbPristine.next_allocation_id, payment_id := pay.id,
           charge_id := 1, charge_type := "rent", amount := (100000 : Money) }] ∧
      (∀ c ∈ chargesOf db' "rent", c.id = 1 → c.status = ChargeStatus.paid)) ∧
    mark_charge_as_paid [] 0 dbScenB 1 "rent" 100 "Admin" none
      = .error .alreadyPaid :=
  C8_manual_mark [] 0 dbPristine 1 "rent" 100 "Admin" none
    { id := 1, stay_id := 1, month := 1, amount := 100000, status := .pending }
    { id := 1, object_id := 1 } { id := 1, owner_id := 100 }
    [] 0 dbScenB 1 "rent" 100 "Admin" none
    { id := 1, stay_id := 1, month := 1, amount := 3000000, status := .paid }
    (by decide) (by decide) (by decide) (by decide) (by decide) (by decide)
    (by decide) (by decide) (by decide)


/-- **C7**: the balance formula.  For an existing stay,
`balance = total_charged - total_paid - advances`, where charges are
filtered by their nominal month (`month <= as_of_date`), while paid sums join
allocations to payments filtered by status `confirmed` and by the date of
their confirmation timestamp (`date(confirmed_at) <= as_of_date`, false for
NULL), and advances sum `unallocated_amount` over those same confirmed
payments — two deliberately different time bases. -/
theorem C7_balance (db : DB) (sid asof : Nat) (st : TenantStay)
    (hst : findStay db sid = some st) :
    ∃ b, get_stay_balance db sid asof = .ok b ∧
      b.rent_charged = ((db.rent_charges.filter (fun c =>
          c.stay_id == sid && decide (c.month ≤ asof))).map (fun c => c.amount)).sum ∧
      b.comm_charged = ((db.comm_charges.filter (fun c =>
          c.stay_id == sid && decide (c.month ≤ asof))).map (fun c => c.amount)).sum ∧
      b.total_charged = b.rent_charged + b.comm_charged ∧
      b.rent_paid = ((db.allocations.filter (fun a => a.charge_type == "rent" &&
          db.payments.any (fun p => p.id == a.payment_id &&
            (p.stay_id == sid && p.status == "confirmed" &&
              (match p.confirmed_at with
               | some d => decide (d ≤ asof)
               | none => false))))).map (fun a => a.amount)).sum ∧
      b.comm_paid = ((db.allocations.filter (fun a => a.charge_type == "comm" &&
          db.payments.any (fun p => p.id == a.payment_id &&
            (p.stay_id == sid && p.status == "confirmed" &&
              (match p.confirmed_at with
               | some d => decide (d ≤ asof)
               | none => false))))).map (fun a => a.amount)).sum ∧
      b.total_paid = b.rent_paid + b.comm_paid ∧
      b.advances = ((db.payments.filter (fun p =>
          p.stay_id == sid && p.status == "confirmed" &&
            (match p.confirmed_at with
             | some d => decide (d ≤ asof)
             | none => false))).map (fun p => p.unallocated_amount)).sum ∧
      b.balance = b.total_charged - b.total_paid - b.advances := by
  unfold get_stay_balance
  rw [hst]
  exact ⟨_, rfl, rfl, rfl, rfl, rfl, rfl, rfl, rfl, rfl⟩

/-- Witness for `C7_balance` at the Scenario-B state. -/
theorem C7_balance_witness :
    ∃ b, get_stay_balance dbScenB 1 10 = .ok b ∧
      b.rent_charged = ((dbScenB.rent_charges.filter (fun c =>
          c.stay_id == 1 && decide (c.month ≤ 10))).map (fun c => c.amount)).sum ∧
      b.comm_charged = ((dbScenB.comm_charges.filter (fun c =>
          c.stay_id == 1 && decide (c.month ≤ 10))).map (fun c => c.amount)).sum ∧
      b.total_charged = b.rent_charged + b.comm_charged ∧
      b.rent_paid = ((dbScenB.allocations.filter (fun a => a.charge_type == "rent" &&
          dbScenB.payments.any (fun p => p.id == a.payment_id &&
            (p.stay_id == 1 && p.status == "confirmed" &&
              (match p.confirmed_at with
               | some d => decide (d ≤ 10)
               | none => false))))).map (fun a => a.amount)).sum ∧
      b.comm_paid = ((dbScenB.allocations.filter (fun a => a.charge_type == "comm" &&
          dbScenB.payments.any (fun p => p.id == a.payment_id &&
            (p.stay_id == 1 && p.status == "confirmed" &&
              (match p.confirmed_at with
               | some d => decide (d ≤ 10)
               | none => false))))).map (fun a => a.amount)).sum ∧
      b.total_paid = b.rent_paid + b.comm_paid ∧
      b.advances = ((dbScenB.payments.filter (fun p =>
          p.stay_id == 1 && p.status == "confirmed" &&
            (match p.confirmed_at with
             | some d => decide (d ≤ 10)
             | none => false))).map (fun p => p.unallocated_amount)).sum ∧
      b.balance = b.total_charged - b.total_paid - b.advances :=
  C7_balance dbScenB 1 10 { id := 1, object_id := 1 } (by decide)


end HouseRentBot
